import Mathlib

/-!
Verification development for the screamsheet repository.

This file gives a shallow embedding, in Lean 4, of the data model and the
operations of the screamsheet code base that the specification talks about:

* the NHL and MLB data providers (`get_game_scores`, `get_standings`,
  `src/screamsheet/providers/nhl_provider.py` and `mlb_provider.py`),
* the goalie box-score computation (`src/get_box_score_nhl.py`,
  `parse_nhl_boxscore`),
* the MLB Trade Rumors article slot-filling
  (`src/screamsheet/providers/mlb_trade_rumors_provider.py`),
* the feed-entry sanitizer (`src/screamsheet/base/data_provider.py`,
  `DataProvider.sanitize_entry`),
* the `Section.has_content` logic (`src/screamsheet/base/section.py`) and the
  game-scores and standings renderers (`src/screamsheet/renderers`).

Remote HTTP calls are modelled by an explicit `HTTPResult` value (either a
transport failure, as raised by the `requests` library, or a response with a
status code and an already-parsed JSON body of the expected shape); a Python
function that can raise is embedded as a function into `Except String`.
Mutable section state is modelled by explicit state passing, with the
succession of remote responses given as a stream indexed by the number of
fetches performed so far.
-/

namespace Screamsheet

/-! ## String helpers

The Python code uses `needle in haystack` (substring test) and `str.lower`.
We model strings through their character lists; `Char.toLower` models Python
`str.lower` on the ASCII range, which covers every keyword and team name
occurring in the source.
-/

/-- Boolean test that the first list is a contiguous sublist of the second,
modelling the Python `in` operator on strings. -/
def listSub [DecidableEq α] (needle : List α) : List α → Bool
  | [] => needle.isPrefixOf []
  | c :: rest => needle.isPrefixOf (c :: rest) || listSub needle rest

/-- Python `needle in haystack` on strings. -/
def strIn (needle hay : String) : Bool :=
  listSub needle.data hay.data

/-- Python `str.lower`, on the ASCII range. -/
def lowerStr (s : String) : String :=
  String.mk (s.data.map Char.toLower)

/-! ## HTTP model

`requests.get` either raises a transport-level exception (modelled by
`HTTPResult.failure`) or yields a response with a status code and a body.
Bodies are modelled already parsed into the JSON shape each endpoint returns.
`Response.raise_for_status()` raises for any status code of 400 or above.
-/

/-- Result of a `requests.get` call: transport failure or a response whose
body has already been parsed into shape `α`. -/
inductive HTTPResult (α : Type) where
  | failure (msg : String)
  | response (status : Nat) (body : α)

/-- Model of `Response.raise_for_status()`: an `HTTPError` is raised exactly
for status codes of 400 and above. -/
def raiseForStatus (status : Nat) : Except String Unit :=
  if 400 ≤ status then .error ("HTTPError " ++ toString status) else .ok ()

/-! ## Game scores (`NHLDataProvider.get_game_scores`, `MLBDataProvider.get_game_scores`)

The produced records mirror the `game_info` dictionaries built by the two
providers.  MLB leaves the scores as `game["teams"][side].get("score")`,
which can be absent (`None`); NHL substitutes 0 for an absent score.
-/

/-- The flat game-score record both providers produce (the `game_info`
dictionary). `away_score` and `home_score` are `none` when the JSON field is
absent, as for MLB games that have not started. -/
structure GameScore where
  gameDate : Option String
  away_team : String
  home_team : String
  away_score : Option Int
  home_score : Option Int
  status : String
  deriving DecidableEq, Repr

/-- One game object of the NHL schedule endpoint, with the fields
`get_game_scores` reads.  Nested accesses such as
`game["awayTeam"]["placeName"]["default"]` are flattened into one field. -/
structure NHLGameJson where
  gameState : String
  awayPlace : String
  awayCommon : String
  homePlace : String
  homeCommon : String
  awayScore : Option Int
  homeScore : Option Int
  startTimeUTC : Option String
  deriving DecidableEq, Repr

/-- One day of the NHL schedule (`gameWeek` element); `games` is the value of
`day.get("games", [])`. -/
structure NHLDayJson where
  games : List NHLGameJson
  deriving DecidableEq, Repr

/-- Body of the NHL schedule endpoint; `gameWeek` is `none` when the key is
absent, in which case the code substitutes the one-element default list
`[{}]` (a day with no games). -/
structure NHLSchedulePayload where
  gameWeek : Option (List NHLDayJson)
  deriving DecidableEq, Repr

/-- The per-game body of the NHL loop: games whose `gameState` is `FINAL`,
`OFF` or `LIVE` are turned into a `GameScore`, any other game is skipped. -/
def nhlMapGame (g : NHLGameJson) : Option GameScore :=
  if g.gameState = "FINAL" ∨ g.gameState = "OFF" ∨ g.gameState = "LIVE" then
    some
      { gameDate := g.startTimeUTC
        away_team := g.awayPlace ++ " " ++ g.awayCommon
        home_team := g.homePlace ++ " " ++ g.homeCommon
        away_score := some (g.awayScore.getD 0)
        home_score := some (g.homeScore.getD 0)
        status := g.gameState }
  else none

/-- `NHLDataProvider.get_game_scores`.  The function raises (returns
`.error`) on a transport failure and on a non-2xx status, because the source
calls `response.raise_for_status()` outside any `try` block.  It also raises
an `IndexError` when the payload contains an explicitly empty `gameWeek`
list, since the source indexes `data.get("gameWeek", [{}])[0]`. -/
def nhlGetGameScores (resp : HTTPResult NHLSchedulePayload) :
    Except String (List GameScore) :=
  match resp with
  | .failure msg => .error msg
  | .response status body =>
    match raiseForStatus status with
    | .error e => .error e
    | .ok _ =>
      match body.gameWeek.getD [{ games := [] }] with
      | [] => .error "IndexError: list index out of range"
      | day :: _ => .ok (day.games.filterMap nhlMapGame)

/-- One side of an MLB game (`game["teams"]["away"]` or `["home"]`), with the
fields the provider reads. -/
structure MLBTeamSide where
  name : String
  score : Option Int
  deriving DecidableEq, Repr

/-- One game of the MLB schedule endpoint. -/
structure MLBGameJson where
  gameDate : Option String
  away : MLBTeamSide
  home : MLBTeamSide
  detailedState : String
  deriving DecidableEq, Repr

/-- One date block of the MLB schedule; `games` is `none` when the key is
absent (`date_data.get("games", [])`). -/
structure MLBDateJson where
  games : Option (List MLBGameJson)
  deriving DecidableEq, Repr

/-- Body of the MLB schedule endpoint; `dates` is `none` when absent
(`data.get("dates", [])`). -/
structure MLBSchedulePayload where
  dates : Option (List MLBDateJson)
  deriving DecidableEq, Repr

/-- The record built for one MLB game. -/
def mlbMapGame (g : MLBGameJson) : GameScore :=
  { gameDate := g.gameDate
    away_team := g.away.name
    home_team := g.home.name
    away_score := g.away.score
    home_score := g.home.score
    status := g.detailedState }

/-- `MLBDataProvider.get_game_scores`.  Like the NHL variant it raises on a
transport failure or a non-2xx status; on success every listed game (of any
state) is mapped to a record. -/
def mlbGetGameScores (resp : HTTPResult MLBSchedulePayload) :
    Except String (List GameScore) :=
  match resp with
  | .failure msg => .error msg
  | .response status body =>
    match raiseForStatus status with
    | .error e => .error e
    | .ok _ => .ok ((body.dates.getD []).flatMap fun d => (d.games.getD []).map mlbMapGame)

/-! ## Standings (`NHLDataProvider.get_standings`, `MLBDataProvider.get_standings`)

`get_standings` builds a flat row per team and sorts the resulting DataFrame.
A DataFrame of rows is modelled as a `List` of row records; `sort_values`
is modelled by a stable insertion sort under the same lexicographic key.
Numeric JSON fields the NHL API always supplies (ranks, counting stats) are
modelled as required fields; `pointPctg` is modelled as a rational.
-/

/-- One NHL standings record (element of `data["standings"]`), with the
fields `get_standings` reads.  Fields read through `.get(...)` that the API
always supplies are modelled as required. -/
structure NHLTeamRecordJson where
  teamName : String
  divisionName : String
  conferenceName : String
  divisionSequence : Int
  gamesPlayed : Int
  wins : Int
  losses : Int
  otLosses : Int
  points : Int
  pointPctg : Rat
  goalFor : Int
  goalAgainst : Int
  goalDifferential : Int
  streakCode : String
  streakCount : Int
  deriving DecidableEq, Repr

/-- Body of the NHL standings endpoint; `standings` is `none` when absent
(`data.get("standings", [])`). -/
structure NHLStandingsPayload where
  standings : Option (List NHLTeamRecordJson)
  deriving DecidableEq, Repr

/-- One row of the NHL standings DataFrame (the `team_obj` dictionary). -/
structure NHLStandingsRow where
  conference : String
  division : String
  team : String
  divisionRank : Int
  GP : Int
  W : Int
  L : Int
  OTL : Int
  P : Int
  PCT : Rat
  GF : Int
  GA : Int
  DIFF : Int
  STRK : String
  deriving DecidableEq, Repr

/-- The row built from one NHL standings record; `STRK` concatenates the
streak code with the decimal rendering of the streak count, as
`streakCode + str(streakCount)` does. -/
def mkNHLRow (r : NHLTeamRecordJson) : NHLStandingsRow :=
  { conference := r.conferenceName
    division := r.divisionName
    team := r.teamName
    divisionRank := r.divisionSequence
    GP := r.gamesPlayed
    W := r.wins
    L := r.losses
    OTL := r.otLosses
    P := r.points
    PCT := r.pointPctg
    GF := r.goalFor
    GA := r.goalAgainst
    DIFF := r.goalDifferential
    STRK := r.streakCode ++ toString r.streakCount }

/-- Lexicographic strict comparison of character lists by code point, the
order pandas uses when sorting a string column. -/
def charsLtB : List Char → List Char → Bool
  | [], [] => false
  | [], _ :: _ => true
  | _ :: _, [] => false
  | a :: as, b :: bs => decide (a < b) || (a == b && charsLtB as bs)

/-- Strict string comparison by code points. -/
def strLt (a b : String) : Prop :=
  charsLtB a.data b.data = true

instance : DecidableRel strLt := fun a b =>
  inferInstanceAs (Decidable (charsLtB a.data b.data = true))

theorem charsLtB_trichotomy : ∀ a b : List Char,
    charsLtB a b = true ∨ a = b ∨ charsLtB b a = true := by
  intro a
  induction a with
  | nil =>
    intro b
    cases b with
    | nil => exact Or.inr (Or.inl rfl)
    | cons c cs => exact Or.inl rfl
  | cons x xs ih =>
    intro b
    cases b with
    | nil => exact Or.inr (Or.inr rfl)
    | cons y ys =>
      rcases lt_trichotomy x y with h | h | h
      · exact Or.inl (by simp [charsLtB, h])
      · subst h
        rcases ih ys with h2 | h2 | h2
        · exact Or.inl (by simp [charsLtB, h2])
        · exact Or.inr (Or.inl (by rw [h2]))
        · exact Or.inr (Or.inr (by simp [charsLtB, h2]))
      · exact Or.inr (Or.inr (by simp [charsLtB, h]))

theorem charsLtB_trans : ∀ a b c : List Char,
    charsLtB a b = true → charsLtB b c = true → charsLtB a c = true := by
  intro a
  induction a with
  | nil =>
    intro b c hab hbc
    cases b with
    | nil => exact hbc
    | cons y ys =>
      cases c with
      | nil => simp [charsLtB] at hbc
      | cons z zs => rfl
  | cons x xs ih =>
    intro b c hab hbc
    cases b with
    | nil => simp [charsLtB] at hab
    | cons y ys =>
      cases c with
      | nil => simp [charsLtB] at hbc
      | cons z zs =>
        simp only [charsLtB, Bool.or_eq_true, Bool.and_eq_true, decide_eq_true_eq,
          beq_iff_eq] at hab hbc ⊢
        rcases hab with hab | ⟨rfl, hab⟩
        · rcases hbc with hbc | ⟨rfl, hbc⟩
          · exact Or.inl (lt_trans hab hbc)
          · exact Or.inl hab
        · rcases hbc with hbc | ⟨rfl, hbc⟩
          · exact Or.inl hbc
          · exact Or.inr ⟨rfl, ih ys zs hab hbc⟩

theorem strLt_trichotomy (a b : String) : strLt a b ∨ a = b ∨ strLt b a := by
  rcases charsLtB_trichotomy a.data b.data with h | h | h
  · exact Or.inl h
  · refine Or.inr (Or.inl ?_)
    cases a; cases b
    exact congrArg String.mk h
  · exact Or.inr (Or.inr h)

theorem strLt_trans {a b c : String} (h1 : strLt a b) (h2 : strLt b c) : strLt a c :=
  charsLtB_trans a.data b.data c.data h1 h2

/-- Row comparison modelling the NHL
`sort_values(by=["conference", "division", "divisionRank"])` call:
conference, then division, then division rank, lexicographically. -/
def nhlRowLe (a b : NHLStandingsRow) : Prop :=
  strLt a.conference b.conference ∨
    (a.conference = b.conference ∧
      (strLt a.division b.division ∨
        (a.division = b.division ∧ a.divisionRank ≤ b.divisionRank)))

instance : DecidableRel nhlRowLe := fun a b => by
  unfold nhlRowLe; infer_instance

instance : IsTotal NHLStandingsRow nhlRowLe := by
  constructor
  intro a b
  rcases strLt_trichotomy a.conference b.conference with h | h | h
  · exact Or.inl (Or.inl h)
  · rcases strLt_trichotomy a.division b.division with h2 | h2 | h2
    · exact Or.inl (Or.inr ⟨h, Or.inl h2⟩)
    · rcases le_total a.divisionRank b.divisionRank with h3 | h3
      · exact Or.inl (Or.inr ⟨h, Or.inr ⟨h2, h3⟩⟩)
      · exact Or.inr (Or.inr ⟨h.symm, Or.inr ⟨h2.symm, h3⟩⟩)
    · exact Or.inr (Or.inr ⟨h.symm, Or.inl h2⟩)
  · exact Or.inr (Or.inl h)

instance : IsTrans NHLStandingsRow nhlRowLe := by
  constructor
  intro a b c hab hbc
  rcases hab with hab | ⟨he, hab⟩
  · rcases hbc with hbc | ⟨he2, _⟩
    · exact Or.inl (strLt_trans hab hbc)
    · exact Or.inl (he2 ▸ hab)
  · rcases hbc with hbc | ⟨he2, hbc⟩
    · exact Or.inl (he ▸ hbc)
    · refine Or.inr ⟨he.trans he2, ?_⟩
      rcases hab with hab | ⟨hd, hab⟩
      · rcases hbc with hbc | ⟨hd2, _⟩
        · exact Or.inl (strLt_trans hab hbc)
        · exact Or.inl (hd2 ▸ hab)
      · rcases hbc with hbc | ⟨hd2, hbc⟩
        · exact Or.inl (hd ▸ hbc)
        · exact Or.inr ⟨hd.trans hd2, le_trans hab hbc⟩

/-- `NHLDataProvider.get_standings`.  Raises (returns `.error`) on a
transport failure or a non-2xx status, because `raise_for_status()` is called
outside any `try` block.  When the payload holds no standings records, the
code builds `pd.DataFrame([])` — a frame with no columns — and
`sort_values(by=["conference", "division", "divisionRank"])` raises a
`KeyError` for the missing column (unlike the MLB provider, which guards the
empty case).  Otherwise it returns one row per record, sorted by conference,
division and division rank ascending. -/
def nhlGetStandings (resp : HTTPResult NHLStandingsPayload) :
    Except String (List NHLStandingsRow) :=
  match resp with
  | .failure msg => .error msg
  | .response status body =>
    match raiseForStatus status with
    | .error e => .error e
    | .ok _ =>
      if (body.standings.getD []).isEmpty then Except.error "KeyError: conference"
      else .ok (List.insertionSort nhlRowLe ((body.standings.getD []).map mkNHLRow))

/-- One team record of an MLB standings division block, with the fields the
provider reads.  `divisionRank` and `pct` are strings in the MLB API. -/
structure MLBTeamRecJson where
  teamName : Option String
  wins : Option Int
  losses : Option Int
  ties : Option Int
  pct : Option String
  divisionRank : Option String
  deriving DecidableEq, Repr

/-- One element of `data["records"]`; `divisionLink` is
`record.get("division", {}).get("link", "")` flattened (empty when either key
is absent). -/
structure MLBRecordJson where
  divisionLink : String
  teamRecords : List MLBTeamRecJson
  deriving DecidableEq, Repr

/-- Body of the MLB standings endpoint; `records` is `none` when absent. -/
structure MLBStandingsPayload where
  records : Option (List MLBRecordJson)
  deriving DecidableEq, Repr

/-- One element of the divisions endpoint body. -/
structure MLBDivisionJson where
  name : Option String
  deriving DecidableEq, Repr

/-- Body of the MLB divisions endpoint; `divisions` is `none` when absent
(`data.get("divisions", [{}])`). -/
structure MLBDivisionsPayload where
  divisions : Option (List MLBDivisionJson)
  deriving DecidableEq, Repr

/-- One row of the MLB standings DataFrame (the `team_obj` dictionary). -/
structure MLBStandingsRow where
  division : String
  team : Option String
  wins : Option Int
  losses : Option Int
  ties : Option Int
  pct : Option String
  divisionRank : Option String
  deriving DecidableEq, Repr

/-- `MLBDataProvider._get_division`: resolves a record's division name via a
further HTTP call, converting every failure (empty link, transport error,
error status, empty division list, missing name) to `"Unknown Division"`
because the whole body is wrapped in `try/except`.  The HTTP environment is
modelled as a map from link to result. -/
def mlbGetDivision (divEnv : String → HTTPResult MLBDivisionsPayload)
    (divisionLink : String) : String :=
  if divisionLink = "" then "Unknown Division"
  else
    match divEnv divisionLink with
    | .failure _ => "Unknown Division"
    | .response status body =>
      if 400 ≤ status then "Unknown Division"
      else
        match body.divisions.getD [{ name := none }] with
        | [] => "Unknown Division"
        | d :: _ => d.name.getD "Unknown Division"

/-- Rows built from one MLB records block. -/
def mlbRecordRows (divEnv : String → HTTPResult MLBDivisionsPayload)
    (rec : MLBRecordJson) : List MLBStandingsRow :=
  let division := mlbGetDivision divEnv rec.divisionLink
  rec.teamRecords.map fun t =>
    { division := division
      team := t.teamName
      wins := t.wins
      losses := t.losses
      ties := t.ties
      pct := t.pct
      divisionRank := t.divisionRank }

/-- Order on the optional `divisionRank` strings: pandas compares the strings
lexicographically and places missing values last. -/
def optRankLe : Option String → Option String → Prop
  | none, none => True
  | none, some _ => False
  | some _, none => True
  | some a, some b => a ≤ b

instance : DecidableRel optRankLe := fun a b => by
  cases a <;> cases b <;> simp [optRankLe] <;> infer_instance

/-- The sort key of the MLB `sort_values(by=["division", "divisionRank"])`. -/
def mlbRowLe (a b : MLBStandingsRow) : Prop :=
  a.division < b.division ∨ (a.division = b.division ∧ optRankLe a.divisionRank b.divisionRank)

instance : DecidableRel mlbRowLe := fun a b => by
  unfold mlbRowLe; infer_instance

theorem optRankLe_total (a b : Option String) : optRankLe a b ∨ optRankLe b a := by
  cases a <;> cases b <;> simp [optRankLe]
  exact le_total _ _

theorem optRankLe_trans {a b c : Option String} (h1 : optRankLe a b)
    (h2 : optRankLe b c) : optRankLe a c := by
  cases a <;> cases b <;> cases c <;> simp_all [optRankLe]
  exact le_trans h1 h2

instance : IsTotal MLBStandingsRow mlbRowLe := by
  constructor
  intro a b
  rcases lt_trichotomy a.division b.division with h | h | h
  · exact Or.inl (Or.inl h)
  · rcases optRankLe_total a.divisionRank b.divisionRank with hr | hr
    · exact Or.inl (Or.inr ⟨h, hr⟩)
    · exact Or.inr (Or.inr ⟨h.symm, hr⟩)
  · exact Or.inr (Or.inl h)

instance : IsTrans MLBStandingsRow mlbRowLe := by
  constructor
  intro a b c hab hbc
  rcases hab with hab | ⟨hab, hab2⟩
  · rcases hbc with hbc | ⟨hbc, _⟩
    · exact Or.inl (lt_trans hab hbc)
    · exact Or.inl (hbc ▸ hab)
  · rcases hbc with hbc | ⟨hbc, hbc2⟩
    · exact Or.inl (hab ▸ hbc)
    · exact Or.inr ⟨hab.trans hbc, optRankLe_trans hab2 hbc2⟩

/-- `MLBDataProvider.get_standings`, for an explicitly supplied season (the
current-date fallback that runs only when `season is None` is outside the
embedded path).  Raises on a transport failure or non-2xx status of the main
request; returns the empty DataFrame when the successful payload yields no
team rows, and otherwise the rows sorted by division and division rank. -/
def mlbGetStandings (resp : HTTPResult MLBStandingsPayload)
    (divEnv : String → HTTPResult MLBDivisionsPayload) :
    Except String (List MLBStandingsRow) :=
  match resp with
  | .failure msg => .error msg
  | .response status body =>
    match raiseForStatus status with
    | .error e => .error e
    | .ok _ =>
      match (body.records.getD []).flatMap (mlbRecordRows divEnv) with
      | [] => .ok []
      | rows => .ok (List.insertionSort mlbRowLe rows)

/-! ## Goalie box score (`parse_nhl_boxscore`, goalie part)

The goalie loop of `parse_nhl_boxscore` builds, per goalie, the dictionary
`{"name": ..., "SA": shotsAgainst, "SV": saves, "SV%": ...}` where the save
percentage is the fixed-point string `f"{saves / shotsAgainst:.3f}"` when
`shotsAgainst > 0` and the sentinel `"N/A"` otherwise.  Counting stats are
non-negative, so they are modelled as `Nat`; the `:.3f` formatting of the
ratio is modelled exactly on the rational value, rounding half to even.
-/

/-- Left-pads a number below 1000 to three digits. -/
def pad3 (n : Nat) : String :=
  if n < 10 then "00" ++ toString n
  else if n < 100 then "0" ++ toString n
  else toString n

/-- Fixed-point rendering of `num / den` with three digits after the point,
modelling the Python format `f"{num / den:.3f}"` (round half to even) on the
exact ratio.  Only ever applied with `den > 0` by the code. -/
def format3 (num den : Nat) : String :=
  let scaled := num * 1000
  let q := scaled / den
  let r := scaled % den
  let q := if den < 2 * r || (2 * r == den && q % 2 == 1) then q + 1 else q
  toString (q / 1000) ++ "." ++ pad3 (q % 1000)

/-- One raw goalie object of the NHL box-score payload; `shotsAgainst` and
`saves` are read through `.get`, so they may be absent. -/
structure RawGoalie where
  name : String
  shotsAgainst : Option Nat
  saves : Option Nat
  deriving DecidableEq, Repr

/-- One row of the goalie stats table (`SV%` is spelled `SVpct`). -/
structure GoalieRow where
  name : String
  SA : Nat
  SV : Nat
  SVpct : String
  deriving DecidableEq, Repr

/-- The goalie dictionary built by `parse_nhl_boxscore`: `SA` and `SV`
default to 0 when absent; the save percentage divides by
`player.get("shotsAgainst", 1)` but only under the guard
`player.get("shotsAgainst", 0) > 0`, and is `"N/A"` otherwise. -/
def goalieRow (p : RawGoalie) : GoalieRow :=
  { name := p.name
    SA := p.shotsAgainst.getD 0
    SV := p.saves.getD 0
    SVpct :=
      if 0 < p.shotsAgainst.getD 0 then format3 (p.saves.getD 0) (p.shotsAgainst.getD 1)
      else "N/A" }

/-- The goalie half of `parse_nhl_boxscore`: one row per raw goalie. -/
def parseGoalieStats (goalies : List RawGoalie) : List GoalieRow :=
  goalies.map goalieRow

/-! ## MLB Trade Rumors article selection (`MLBTradeRumorsProvider`)

Feed entries carry a title, a summary and a link; `entry.get(field, "")`
makes an absent field indistinguishable from the empty string, so the fields
are modelled as plain strings.
-/

/-- A parsed RSS feed entry, with the fields `get_articles` and `_is_garbage`
read (each via `.get(field, "")`). -/
structure FeedEntry where
  title : String
  summary : String
  link : String
  deriving DecidableEq, Repr

/-- `MLBTradeRumorsProvider.EXCLUSION_KEYWORDS`. -/
def EXCLUSION_KEYWORDS : List String :=
  ["Top 50", "Contest", "Prediction", "Subscribers", "Email List",
   "Presents Our", "Podcast", "Live Chat", "Q&A", "Ask Us Anything",
   "Best of", "MLBTR Chat", "Front Office"]

/-- `MLBTradeRumorsProvider._is_garbage`: true when any blacklisted keyword
occurs, case-insensitively, in the title or in the summary. -/
def isGarbage (e : FeedEntry) : Bool :=
  EXCLUSION_KEYWORDS.any fun k =>
    strIn (lowerStr k) (lowerStr e.title) || strIn (lowerStr k) (lowerStr e.summary)

/-- Insertion into the association list modelling the Python dict
`{team: i for i, team in enumerate(favorite_teams)}`: an existing key keeps
its position and gets the new value. -/
def dictInsert (k : String) (v : Nat) : List (String × Nat) → List (String × Nat)
  | [] => [(k, v)]
  | (k2, v2) :: rest => if k2 = k then (k2, v) :: rest else (k2, v2) :: dictInsert k v rest

/-- The `team_priority` dict built in the provider constructor. -/
def teamPriority (teams : List String) : List (String × Nat) :=
  teams.enum.foldl (fun d p => dictInsert p.2 p.1 d) []

/-- The team-slot loop (`for priority in sorted(self.team_priority.values())`):
walks the sorted priorities, breaking as soon as `priority + 1` reaches
`max_articles`; for each remaining priority it assigns to slot `priority + 1`
the first clean entry whose link is not yet selected and whose title contains
the team name, recording the link. -/
def fillTeamSlots (teams : List String) (maxArticles : Nat) (clean : List FeedEntry) :
    List Nat → List (Option FeedEntry) → List String →
    List (Option FeedEntry) × List String
  | [], sel, guids => (sel, guids)
  | p :: ps, sel, guids =>
    if maxArticles ≤ p + 1 then (sel, guids)
    else
      match clean.find? (fun e => !guids.contains e.link && strIn (teams.getD p "") e.title) with
      | some e =>
        fillTeamSlots teams maxArticles clean ps (sel.set (p + 1) (some e)) (e.link :: guids)
      | none => fillTeamSlots teams maxArticles clean ps sel guids

/-- The backfill loop (`while fill_index < self.max_articles and entry_index <
len(remaining_entries)`): walks the slots in order and puts the next unused
remaining entry into every slot still empty. -/
def backfill : List (Option FeedEntry) → List FeedEntry → List (Option FeedEntry)
  | [], _ => []
  | sel, [] => sel
  | none :: sel, e :: rem => some e :: backfill sel rem
  | some s :: sel, rem => some s :: backfill sel rem

/-- The output formatting loop (`for i, entry in enumerate(final_selection)`):
every filled slot `i` yields the pair of the label `Section i+1` and its
entry, in slot order. -/
def formatOutput : Nat → List (Option FeedEntry) → List (String × FeedEntry)
  | _, [] => []
  | i, none :: sel => formatOutput (i + 1) sel
  | i, some e :: sel => ("Section " ++ toString (i + 1), e) :: formatOutput (i + 1) sel

/-- The clean feed: entries surviving the `_is_garbage` filter, in feed
order. -/
def cleanEntries (entries : List FeedEntry) : List FeedEntry :=
  entries.filter fun e => !isGarbage e

/-- The priorities walked by the team-slot loop:
`sorted(self.team_priority.values())`. -/
def sortedPrios (teams : List String) : List Nat :=
  List.insertionSort (fun a b => a ≤ b) ((teamPriority teams).map Prod.snd)

/-- The state (`final_selection`, `selected_guids`) after the team-slot
phase of `get_articles`. -/
def teamPhase (entries : List FeedEntry) (teams : List String) (maxArticles : Nat) :
    List (Option FeedEntry) × List String :=
  fillTeamSlots teams maxArticles (cleanEntries entries) (sortedPrios teams)
    (List.replicate maxArticles none) []

/-- `remaining_entries`: clean entries whose link was not selected by the
team-slot phase. -/
def remainingEntries (entries : List FeedEntry) (teams : List String)
    (maxArticles : Nat) : List FeedEntry :=
  (cleanEntries entries).filter fun e => !(teamPhase entries teams maxArticles).2.contains e.link

/-- `MLBTradeRumorsProvider.get_articles`, as a function of the parsed feed
entries, the favorite teams and `max_articles`.  (The links the backfill loop
adds to `selected_guids` have no further observable effect and are
dropped.) -/
def getArticles (entries : List FeedEntry) (teams : List String) (maxArticles : Nat) :
    List (String × FeedEntry) :=
  formatOutput 0
    (backfill (teamPhase entries teams maxArticles).1 (remainingEntries entries teams maxArticles))

/-! ## Feed-entry sanitizing (`DataProvider._sanitize_text`, `_looks_like_garbage`, `sanitize_entry`)

All text processing is carried out on character lists with structural
recursion, so every definition evaluates by kernel reduction.  Python regular
expression classes are modelled on the ASCII range, which is the range the
source data exercises.
-/

/-- Python whitespace class for the purposes of `re.sub(r"\s+", ...)` and
`str.strip`, on the ASCII range. -/
def isPySpace (c : Char) : Bool :=
  c = ' ' || c = '\t' || c = '\n' || c = '\r' || c = '\x0b' || c = '\x0c'

/-- Python word character (regex `\w`) on the ASCII range. -/
def isWordChar (c : Char) : Bool :=
  c.isAlphanum || c = '_'

/-- Boundary model of the Python standard-library `html.unescape` call in
`_sanitize_text`, restricted to the predefined XML entities (named and the
decimal apostrophe reference); other entity references pass through
unchanged. -/
def unescapeHtml : List Char → List Char
  | [] => []
  | '&' :: 'a' :: 'm' :: 'p' :: ';' :: rest => '&' :: unescapeHtml rest
  | '&' :: 'l' :: 't' :: ';' :: rest => '<' :: unescapeHtml rest
  | '&' :: 'g' :: 't' :: ';' :: rest => '>' :: unescapeHtml rest
  | '&' :: 'q' :: 'u' :: 'o' :: 't' :: ';' :: rest => '"' :: unescapeHtml rest
  | '&' :: '#' :: '3' :: '9' :: ';' :: rest => Char.ofNat 39 :: unescapeHtml rest
  | '&' :: 'a' :: 'p' :: 'o' :: 's' :: ';' :: rest => Char.ofNat 39 :: unescapeHtml rest
  | c :: rest => c :: unescapeHtml rest

/-- Model of `re.sub(r"<[^>]+>", "", text)`: scanning left to right, a `<`
followed by at least one non-`>` character and a closing `>` is removed with
everything in between; a `<` with no such closing `>` (or immediately
followed by `>`) is kept.  The buffer argument holds the characters read
since the pending `<`. -/
def stripTagsAux : List Char → Option (List Char) → List Char
  | [], none => []
  | [], some buf => '<' :: buf.reverse
  | c :: rest, none =>
    if c = '<' then stripTagsAux rest (some []) else c :: stripTagsAux rest none
  | c :: rest, some buf =>
    if c = '>' then
      match buf with
      | [] => '<' :: '>' :: stripTagsAux rest none
      | _ => stripTagsAux rest none
    else stripTagsAux rest (some (c :: buf))

/-- HTML tag removal, `re.sub(r"<[^>]+>", "", text)`. -/
def stripTags (cs : List Char) : List Char :=
  stripTagsAux cs none

/-- C0 control characters removed by `_sanitize_text` (all of
`\x00-\x08`, `\x0b`, `\x0c`, `\x0e-\x1f`; tab, newline and carriage return
survive). -/
def isStrippedControl (c : Char) : Bool :=
  (c.toNat ≤ 0x08) || c = '\x0b' || c = '\x0c' ||
    (0x0e ≤ c.toNat && c.toNat ≤ 0x1f)

/-- Removal of the control characters, `re.sub(r"[\x00-\x08\x0b-\x0c\x0e-\x1f]+", "", text)`. -/
def stripControl (cs : List Char) : List Char :=
  cs.filter fun c => !isStrippedControl c

/-- Whitespace collapsing, `re.sub(r"\s+", " ", text)`: every maximal
whitespace run becomes a single space.  The flag records whether the scan is
inside a whitespace run. -/
def collapseWs : Bool → List Char → List Char
  | _, [] => []
  | inRun, c :: rest =>
    if isPySpace c then
      if inRun then collapseWs true rest else ' ' :: collapseWs true rest
    else c :: collapseWs false rest

/-- Python `str.strip()` on character lists. -/
def pyStrip (cs : List Char) : List Char :=
  ((cs.dropWhile isPySpace).reverse.dropWhile isPySpace).reverse

/-- `DataProvider._sanitize_text`: empty input stays empty; otherwise decode
HTML entities, drop HTML tags, drop C0 control characters, collapse
whitespace runs and strip. -/
def sanitizeText (s : String) : String :=
  if s = "" then ""
  else String.mk (pyStrip (collapseWs false (stripControl (stripTags (unescapeHtml s.data)))))

/-- `DataProvider._looks_like_garbage`: empty text, stripped text shorter
than 20 characters, a 1-30 character run of non-word characters, or a lone
brace/bracket token. -/
def looksLikeGarbage (text : String) : Bool :=
  if text = "" then true
  else
    let t := pyStrip text.data
    if t.length < 20 then true
    else if 1 ≤ t.length && t.length ≤ 30 && t.all (fun c => !isWordChar c || c = '_') then true
    else if t = ['\x7b'] || t = ['\x7d'] || t = ['[', ']'] || t = ['\x7b', '\x7d'] then true
    else false

/-- A raw feedparser entry as `sanitize_entry` reads it.  Fields are
`Option`s because `entry.get(key, default)` distinguishes an absent key from
an empty value for the `id`/`guid`/`link` fallback chain. -/
structure RawEntry where
  title : Option String
  title_detail : Option String
  summary : Option String
  description : Option String
  content : Option String
  link : Option String
  guid : Option String
  id : Option String
  published_parsed : Option Nat
  deriving DecidableEq, Repr

/-- The cleaned minimal dictionary `sanitize_entry` returns. -/
structure CleanedEntry where
  title : String
  summary : String
  link : String
  published_parsed : Option Nat
  id : String
  deriving DecidableEq, Repr

/-- Python `a or b` on strings: the first operand unless it is empty. -/
def pyOr (a b : String) : String :=
  if a = "" then b else a

/-- The title lookup of `sanitize_entry`:
`entry.get("title", "") or entry.get("title_detail", "")`. -/
def rawTitle (e : RawEntry) : String :=
  pyOr (e.title.getD "") (e.title_detail.getD "")

/-- The summary lookup of `sanitize_entry`: `entry.get("summary", "") or
entry.get("description", "") or entry.get("content", "")`. -/
def rawSummary (e : RawEntry) : String :=
  pyOr (e.summary.getD "") (pyOr (e.description.getD "") (e.content.getD ""))

/-- The first segment of `summary.split(". ")`: the prefix up to the first
occurrence of a period followed by a space (the whole string when there is
none). -/
def firstSegment : List Char → List Char
  | [] => []
  | '.' :: ' ' :: _ => []
  | c :: rest => c :: firstSegment rest

/-- Python `s.rsplit(" ", 1)[0]`: everything before the last space, or the
whole string when it contains no space. -/
def dropLastWord (cs : List Char) : List Char :=
  if cs.contains ' ' then ((cs.reverse.dropWhile fun c => c ≠ ' ').tail).reverse
  else cs

/-- The summary truncation of `sanitize_entry`:
`summary[:4000].rsplit(" ", 1)[0] + "..."`, applied when the summary exceeds
4000 characters. -/
def truncateSummary (s : String) : String :=
  String.mk (dropLastWord (s.data.take 4000)) ++ "..."

/-- `DataProvider.sanitize_entry`: sanitize title and summary, reject the
entry when both are garbage, fall back to the summary's first sentence when
the title is shorter than 3 characters, truncate summaries over 4000
characters at a word boundary, and build the cleaned minimal dictionary. -/
def sanitizeEntry (e : RawEntry) : Option CleanedEntry :=
  let title := sanitizeText (rawTitle e)
  let summary := sanitizeText (rawSummary e)
  if looksLikeGarbage summary && looksLikeGarbage title then none
  else
    let title :=
      if title = "" ∨ title.length < 3 then
        let fs := String.mk (pyStrip ((firstSegment summary.data).take 120))
        if fs ≠ "" then fs else title
      else title
    let summary := if 4000 < summary.length then truncateSummary summary else summary
    some
      { title := title
        summary := summary
        link := e.link.getD ""
        published_parsed := e.published_parsed
        id := e.id.getD (e.guid.getD (e.link.getD "")) }

/-! ## Flowables and renderers

ReportLab flowables are an out-of-scope presentation boundary; only the data
put into them matters here.  A `LeafFlow` is a paragraph, spacer or plain
table of strings; a `Cell` is a grid cell (an empty-string placeholder, a
single flowable, or a column of flowables); a `Flow` additionally includes
the grid tables the renderers assemble.  Style objects, column widths and
font settings carry no data and are omitted.
-/

/-- A basic flowable: paragraph text (with its inline markup as in the
source), a spacer, or a table of strings. -/
inductive LeafFlow where
  | para (text : String)
  | spacer (w h : Nat)
  | strTable (rows : List (List String))
  deriving DecidableEq, Repr

/-- A cell of an assembled grid table: the empty-string placeholder used for
an empty group, one flowable, or a column of flowables. -/
inductive Cell where
  | str (s : String)
  | flow (f : LeafFlow)
  | flows (fs : List LeafFlow)
  deriving DecidableEq, Repr

/-- A top-level flowable returned by a renderer. -/
inductive Flow where
  | para (text : String)
  | spacer (w h : Nat)
  | strTable (rows : List (List String))
  | grid (rows : List (List Cell))
  deriving DecidableEq, Repr

/-! ### `StandingsSection` state and `Section.has_content`

`Section.has_content` dispatches on the dynamic type of `self.data`: `None`
triggers a fetch; for a `list` or `dict` the emptiness is checked; any other
non-`None` value (such as the standings DataFrame) counts as content.  The
provider is modelled as a stream of responses indexed by the number of
fetches done so far.
-/

/-- The dynamic value held in `StandingsSection.data`: `None` before any
fetch, or what `get_standings` returned — for the standings providers a
DataFrame (possibly empty), modelled with MLB rows; `pylist`/`pydict` cover
the isinstance branch of `has_content`. -/
inductive PyVal where
  | pynone
  | pylist (items : List String)
  | pydict (entries : List (String × String))
  | pyframe (rows : List MLBStandingsRow)
  deriving DecidableEq, Repr

/-- State of a `StandingsSection`: the current `self.data` and the stream of
provider responses consumed by successive `fetch_data` calls. -/
structure StandingsState where
  data : PyVal
  responses : Nat → PyVal
  fetchCount : Nat

/-- `StandingsSection.fetch_data`: store the provider's next response in
`self.data`. -/
def standingsFetchData (st : StandingsState) : StandingsState :=
  { st with data := st.responses st.fetchCount, fetchCount := st.fetchCount + 1 }

/-- `Section.has_content`: fetch when `self.data is None`, then return
`self.data is not None and len(self.data) > 0` when the data is a list or a
dict, and `self.data is not None` otherwise. -/
def hasContent (st : StandingsState) : Bool × StandingsState :=
  let st1 := match st.data with
    | .pynone => standingsFetchData st
    | _ => st
  let b := match st1.data with
    | .pynone => false
    | .pylist items => decide (0 < items.length)
    | .pydict entries => decide (0 < entries.length)
    | .pyframe _ => true
  (b, st1)

/-- Non-emptiness of a dynamic data value, as the specification's phrase
`fetched data is non-empty` reads for each shape. -/
def pyNonEmpty : PyVal → Bool
  | .pynone => false
  | .pylist items => !items.isEmpty
  | .pydict entries => !entries.isEmpty
  | .pyframe rows => !rows.isEmpty

/-! ### `GameScoresSection`

`fetch_data` stores `provider.get_game_scores(date)`; `render` re-fetches
whenever `self.data` is falsy (`None` or the empty list), then lays the games
with both scores present out into three columns.
-/

/-- State of a `GameScoresSection`: `data` is `none` before the first fetch,
otherwise the stored list; the stream gives the successive results of
`provider.get_game_scores(self.date)`. -/
structure GameScoresState where
  data : Option (List GameScore)
  responses : Nat → List GameScore
  fetchCount : Nat

/-- Python truthiness of `self.data` in `GameScoresSection.render`:
falsy when `None` or the empty list. -/
def gsDataFalsy : Option (List GameScore) → Bool
  | none => true
  | some l => l.isEmpty

/-- `GameScoresSection.fetch_data`. -/
def gsFetchData (st : GameScoresState) : GameScoresState :=
  { st with data := some (st.responses st.fetchCount), fetchCount := st.fetchCount + 1 }

/-- The small two-row table built for one game, followed by the spacer the
loop appends to the same column. -/
def gameTable (g : GameScore) : List LeafFlow :=
  [LeafFlow.strTable
      [[g.away_team, toString (g.away_score.getD 0)],
       ["@" ++ g.home_team, toString (g.home_score.getD 0)]],
   LeafFlow.spacer 1 10]

/-- The three-column split of `GameScoresSection.render`: the `i`-th game
with both scores present goes to column `i % 3`. -/
def splitCols : Nat → List GameScore → List LeafFlow × List LeafFlow × List LeafFlow
  | _, [] => ([], [], [])
  | i, g :: rest =>
    let (l, c, r) := splitCols (i + 1) rest
    if g.away_score.isSome && g.home_score.isSome then
      if i % 3 = 0 then (gameTable g ++ l, c, r)
      else if i % 3 = 1 then (l, gameTable g ++ c, r)
      else (l, c, gameTable g ++ r)
    else (l, c, r)

/-- The flowables `GameScoresSection.render` produces from non-empty data:
one grid table whose single row holds the three columns. -/
def gsElements (games : List GameScore) : List Flow :=
  let (l, c, r) := splitCols 0 games
  [Flow.grid [[Cell.flows l, Cell.flows c, Cell.flows r]]]

/-- `GameScoresSection.render`: re-fetch when `self.data` is falsy, return no
flowables when it still is, and otherwise render the stored games. -/
def gsRender (st : GameScoresState) : List Flow × GameScoresState :=
  let st1 := if gsDataFalsy st.data then gsFetchData st else st
  if gsDataFalsy st1.data then ([], st1)
  else (gsElements (st1.data.getD []), st1)

/-! ### `StandingsSection._render_nhl_standings` -/

/-- The inner division table: a header row naming the division followed by
one row per team of the group, in group order. -/
def nhlDivisionTable (divName : String) (group : List NHLStandingsRow) : LeafFlow :=
  LeafFlow.strTable
    (((divName ++ " Division") :: ["W", "L", "OTL", "P"]) ::
      group.map fun r => [r.team, toString r.W, toString r.L, toString r.OTL, toString r.P])

/-- One cell of the standings grid: the division table when the group is
non-empty, the empty-string placeholder otherwise. -/
def nhlDivisionCell (divName : String) (conf : List NHLStandingsRow) : Cell :=
  let group := conf.filter fun r => r.division == divName
  match group with
  | [] => Cell.str ""
  | _ => Cell.flow (nhlDivisionTable divName group)

/-- `StandingsSection._render_nhl_standings`: a grid with a conference
header row and one row per entry of the fixed division layout
(Atlantic/Central, then Metropolitan/Pacific). -/
def renderNHLStandings (rows : List NHLStandingsRow) : Flow :=
  let eastern := rows.filter fun r => r.conference == "Eastern"
  let western := rows.filter fun r => r.conference == "Western"
  Flow.grid
    [[Cell.flow (LeafFlow.para "<b>EASTERN CONFERENCE</b>"),
      Cell.flow (LeafFlow.para "<b>WESTERN CONFERENCE</b>")],
     [nhlDivisionCell "Atlantic" eastern, nhlDivisionCell "Central" western],
     [nhlDivisionCell "Metropolitan" eastern, nhlDivisionCell "Pacific" western]]

/-! ## Claim C1: error behavior of `get_game_scores` -/

/-- C1 counterexample: `get_game_scores` does raise on a remote failure.  On
a transport error both providers propagate the exception (the source calls
`requests.get` and `raise_for_status()` outside any `try` block), and an
HTTP error status raises as well — none of these cases returns an empty
list. -/
theorem getGameScores_raises_cex :
    nhlGetGameScores (.failure "ConnectionError") = .error "ConnectionError" ∧
    mlbGetGameScores (.failure "ConnectionError") = .error "ConnectionError" ∧
    nhlGetGameScores (.response 500 { gameWeek := none }) = .error "HTTPError 500" ∧
    mlbGetGameScores (.response 404 { dates := none }) = .error "HTTPError 404" := by
  refine ⟨rfl, rfl, ?_, ?_⟩ <;> rfl

/-- C1 amended: on a network error or an HTTP error status both providers
raise (propagate the exception) rather than returning an empty list.  On a
successful response the NHL provider keeps only `FINAL`/`OFF`/`LIVE` games,
so a date with zero completed or in-progress games yields the empty list;
the MLB provider maps every listed game regardless of state, so its list is
empty exactly when the schedule holds no games at all for the date — a date
with only scheduled games yields a non-empty list. -/
theorem getGameScores_amended :
    (∀ msg, nhlGetGameScores (.failure msg) = .error msg) ∧
    (∀ msg, mlbGetGameScores (.failure msg) = .error msg) ∧
    (∀ status body, 400 ≤ status →
      nhlGetGameScores (.response status body) = .error ("HTTPError " ++ toString status)) ∧
    (∀ status body, 400 ≤ status →
      mlbGetGameScores (.response status body) = .error ("HTTPError " ++ toString status)) ∧
    (∀ status day rest, status < 400 →
      (∀ g ∈ day.games, g.gameState ≠ "FINAL" ∧ g.gameState ≠ "OFF" ∧ g.gameState ≠ "LIVE") →
      nhlGetGameScores (.response status { gameWeek := some (day :: rest) }) = .ok []) ∧
    (∀ status dates, status < 400 →
      (mlbGetGameScores (.response status { dates := some dates }) = .ok [] ↔
        ∀ d ∈ dates, d.games.getD [] = [])) := by
  refine ⟨fun msg => rfl, fun msg => rfl, ?_, ?_, ?_, ?_⟩
  · intro status body h
    simp [nhlGetGameScores, raiseForStatus, h]
  · intro status body h
    simp [mlbGetGameScores, raiseForStatus, h]
  · intro status day rest h hgames
    simp only [nhlGetGameScores, raiseForStatus, if_neg (by omega : ¬ 400 ≤ status)]
    simp only [Option.getD_some, Except.bind]
    congr 1
    rw [List.filterMap_eq_nil_iff]
    intro g hg
    rcases hgames g hg with ⟨h1, h2, h3⟩
    simp [nhlMapGame, h1, h2, h3]
  · intro status dates h
    simp only [mlbGetGameScores, raiseForStatus, if_neg (by omega : ¬ 400 ≤ status)]
    simp only [Option.getD_some, Except.ok.injEq]
    rw [List.flatMap_eq_nil_iff]
    constructor
    · intro hall d hd
      have hmap := hall d hd
      rwa [List.map_eq_nil_iff] at hmap
    · intro hall d hd
      rw [hall d hd]
      rfl

/-- A scheduled (not yet started) NHL game, used as witness input. -/
def futureNHLGame : NHLGameJson :=
  { gameState := "FUT"
    awayPlace := "Philadelphia"
    awayCommon := "Flyers"
    homePlace := "Pittsburgh"
    homeCommon := "Penguins"
    awayScore := none
    homeScore := none
    startTimeUTC := none }

/-- A scheduled (not yet started) MLB game, used to witness that a date with
zero completed games but listed scheduled games yields a non-empty MLB
result. -/
def scheduledMLBGame : MLBGameJson :=
  { gameDate := some "2025-06-01T23:05:00Z"
    away := { name := "Philadelphia Phillies", score := none }
    home := { name := "New York Mets", score := none }
    detailedState := "Scheduled" }

/-- C1 amended, witnessed at concrete inputs: a connection failure, error
statuses for both providers, an NHL schedule with one future game, an MLB
schedule with one empty date (both directions of the characterization), and
an MLB date with one scheduled game, which comes back non-empty. -/
theorem getGameScores_amended_witness :
    nhlGetGameScores (.failure "timeout") = .error "timeout" ∧
    mlbGetGameScores (.failure "timeout") = .error "timeout" ∧
    nhlGetGameScores (.response 503 { gameWeek := none }) = .error "HTTPError 503" ∧
    mlbGetGameScores (.response 503 { dates := none }) = .error "HTTPError 503" ∧
    nhlGetGameScores
      (.response 200 { gameWeek := some [{ games := [futureNHLGame] }] }) = .ok [] ∧
    mlbGetGameScores (.response 200 { dates := some [{ games := none }] }) = .ok [] ∧
    mlbGetGameScores (.response 200 { dates := some [{ games := some [scheduledMLBGame] }] })
      = .ok [mlbMapGame scheduledMLBGame] :=
  ⟨getGameScores_amended.1 "timeout",
   getGameScores_amended.2.1 "timeout",
   getGameScores_amended.2.2.1 503 _ (by decide),
   getGameScores_amended.2.2.2.1 503 _ (by decide),
   getGameScores_amended.2.2.2.2.1 200 _ _ (by decide) (by decide),
   (getGameScores_amended.2.2.2.2.2 200 _ (by decide)).mpr (by decide),
   rfl⟩

/-! ## Claim C3: error behavior of `get_standings` -/

/-- C3 counterexample: `get_standings` raises rather than returning an empty
result when the remote call fails.  A transport failure propagates out of
both providers, and a non-2xx status raises an `HTTPError`. -/
theorem getStandings_raises_cex :
    nhlGetStandings (.failure "ConnectionError") = .error "ConnectionError" ∧
    mlbGetStandings (.failure "ConnectionError") (fun _ => .failure "ConnectionError") =
      .error "ConnectionError" ∧
    nhlGetStandings (.response 502 { standings := none }) = .error "HTTPError 502" ∧
    mlbGetStandings (.response 502 { records := none }) (fun _ => .failure "x") =
      .error "HTTPError 502" := by
  refine ⟨rfl, rfl, ?_, ?_⟩ <;> rfl

/-- C3 amended: on a network error or an HTTP error status both providers
raise (propagate the exception); the NHL provider also raises on a
successful response with an empty standings list, since it sorts the
column-less empty DataFrame by columns that do not exist (a `KeyError`); an
empty result comes only from the MLB provider, which guards the no-records
case explicitly and returns the empty DataFrame. -/
theorem getStandings_amended :
    (∀ msg, nhlGetStandings (.failure msg) = .error msg) ∧
    (∀ msg divEnv, mlbGetStandings (.failure msg) divEnv = .error msg) ∧
    (∀ status body, 400 ≤ status →
      nhlGetStandings (.response status body) = .error ("HTTPError " ++ toString status)) ∧
    (∀ status body divEnv, 400 ≤ status →
      mlbGetStandings (.response status body) divEnv =
        .error ("HTTPError " ++ toString status)) ∧
    (∀ status, status < 400 →
      nhlGetStandings (.response status { standings := some [] }) =
        .error "KeyError: conference") ∧
    (∀ status divEnv, status < 400 →
      mlbGetStandings (.response status { records := some [] }) divEnv = .ok []) := by
  refine ⟨fun msg => rfl, fun msg divEnv => rfl, ?_, ?_, ?_, ?_⟩
  · intro status body h
    simp [nhlGetStandings, raiseForStatus, h]
  · intro status body divEnv h
    simp [mlbGetStandings, raiseForStatus, h]
  · intro status h
    simp [nhlGetStandings, raiseForStatus, if_neg (by omega : ¬ 400 ≤ status)]
  · intro status divEnv h
    simp [mlbGetStandings, raiseForStatus, if_neg (by omega : ¬ 400 ≤ status), Except.bind]

/-- C3 amended, witnessed at concrete inputs. -/
theorem getStandings_amended_witness :
    nhlGetStandings (.failure "timeout") = .error "timeout" ∧
    mlbGetStandings (.failure "timeout") (fun _ => .failure "timeout") = .error "timeout" ∧
    nhlGetStandings (.response 500 { standings := some [] }) = .error "HTTPError 500" ∧
    mlbGetStandings (.response 500 { records := none }) (fun _ => .failure "x") =
      .error "HTTPError 500" ∧
    nhlGetStandings (.response 200 { standings := some [] }) =
      .error "KeyError: conference" ∧
    mlbGetStandings (.response 200 { records := some [] }) (fun _ => .failure "x") = .ok [] :=
  ⟨getStandings_amended.1 "timeout",
   getStandings_amended.2.1 "timeout" _,
   getStandings_amended.2.2.1 500 _ (by decide),
   getStandings_amended.2.2.2.1 500 _ _ (by decide),
   getStandings_amended.2.2.2.2.1 200 (by decide),
   getStandings_amended.2.2.2.2.2 200 _ (by decide)⟩

/-! ## Claim C4: goalie save percentage -/

/-- C4: in the goalie box-score computation, saves 24 against 30 shots
formats as the fixed-point string `0.800`; zero (or absent) shots against
yields the sentinel `N/A`; and for every input the division is guarded by
`shotsAgainst > 0`, so a row either has a positive denominator or carries the
sentinel — never a division error. -/
theorem goalie_save_percentage :
    parseGoalieStats [{ name := "Goalie", shotsAgainst := some 30, saves := some 24 }] =
      [{ name := "Goalie", SA := 30, SV := 24, SVpct := "0.800" }] ∧
    (∀ name sv, (goalieRow { name := name, shotsAgainst := some 0, saves := sv }).SVpct = "N/A") ∧
    (∀ name sv, (goalieRow { name := name, shotsAgainst := none, saves := sv }).SVpct = "N/A") ∧
    (∀ p : RawGoalie, 0 < p.shotsAgainst.getD 0 ∨ (goalieRow p).SVpct = "N/A") := by
  refine ⟨by decide, fun name sv => rfl, fun name sv => rfl, ?_⟩
  intro p
  by_cases h : 0 < p.shotsAgainst.getD 0
  · exact Or.inl h
  · exact Or.inr (by simp [goalieRow, h])

/-! ## Claim C2: article slot-filling scenario

Slots are numbered as in the specification: slot 0 is the general story and
slot `k` belongs to the `k`-th favorite team (1-based), so the Padres — the
team at index 1 of the favorite list — own slot 2 of `final_selection`,
rendered with the label `Section 3`.
-/

/-- Witness feed entry: a general story with no team mention. -/
def feedGeneral : FeedEntry :=
  { title := "Offseason outlook for the league"
    summary := "General news around the league this week."
    link := "https://example.com/outlook" }

/-- Witness feed entry: the single entry mentioning the Padres. -/
def feedPadres : FeedEntry :=
  { title := "Padres acquire veteran reliever"
    summary := "San Diego adds bullpen help."
    link := "https://example.com/padres" }

/-- Witness feed entry: a second general story. -/
def feedRecap : FeedEntry :=
  { title := "Trade deadline winners recap"
    summary := "A look back at the deadline."
    link := "https://example.com/recap" }

/-- Witness feed entry: a third general story. -/
def feedRules : FeedEntry :=
  { title := "Rule changes announced for spring"
    summary := "New rules arrive in spring."
    link := "https://example.com/rules" }

/-- Witness feed entry: a fourth general story, left over after filling. -/
def feedDraft : FeedEntry :=
  { title := "Draft order notes"
    summary := "Ordering notes for the draft."
    link := "https://example.com/draft" }

/-- The default favorite teams of `MLBTradeRumorsProvider`. -/
def defaultTeams : List String :=
  ["Phillies", "Padres", "Yankees"]

/-- C2: with favorite teams Phillies, Padres, Yankees, four output slots and
a clean feed in which exactly one entry's title contains `Padres` (and none
contains the other teams), that entry is assigned to the Padres' slot —
slot 2 of `final_selection`, labelled `Section 3` — and to no other slot;
slot 0 (`Section 1`) receives the first feed entry not already used, and the
remaining slots are backfilled from the unused entries in feed order. -/
theorem article_slot_filling_scenario :
    getArticles [feedGeneral, feedPadres, feedRecap, feedRules, feedDraft] defaultTeams 4 =
      [("Section 1", feedGeneral), ("Section 2", feedRecap),
       ("Section 3", feedPadres), ("Section 4", feedRules)] := by
  decide

/-! ## Claim C6: blacklist filtering

Everything that `get_articles` returns comes from `clean_entries`, the feed
filtered by `_is_garbage`; hence no garbage entry — in particular no entry
whose title contains `Podcast` — reaches any slot.
-/

theorem fillTeamSlots_mem_of_mem (teams : List String) (maxA : Nat)
    (clean : List FeedEntry) :
    ∀ prios sel guids o,
      o ∈ (fillTeamSlots teams maxA clean prios sel guids).1 →
      o ∈ sel ∨ ∃ e ∈ clean, o = some e := by
  intro prios
  induction prios with
  | nil => intro sel guids o h; exact Or.inl h
  | cons p ps ih =>
    intro sel guids o h
    rw [fillTeamSlots] at h
    by_cases hb : maxA ≤ p + 1
    · rw [if_pos hb] at h; exact Or.inl h
    · rw [if_neg hb] at h
      rcases hf : List.find? (fun e => !guids.contains e.link &&
          strIn (teams.getD p "") e.title) clean with _ | e
      · rw [hf] at h
        exact ih _ _ _ h
      · rw [hf] at h
        rcases ih _ _ _ h with hmem | hclean
        · rcases List.mem_or_eq_of_mem_set hmem with hmem2 | rfl
          · exact Or.inl hmem2
          · exact Or.inr ⟨e, List.mem_of_find?_eq_some hf, rfl⟩
        · exact Or.inr hclean

theorem backfill_nil (rem : List FeedEntry) : backfill [] rem = [] := by
  cases rem <;> rfl

theorem backfill_cons_nil (s : Option FeedEntry) (ss : List (Option FeedEntry)) :
    backfill (s :: ss) [] = s :: ss := by
  cases s <;> rfl

theorem backfill_none_cons (ss : List (Option FeedEntry)) (e : FeedEntry)
    (rem : List FeedEntry) :
    backfill (none :: ss) (e :: rem) = some e :: backfill ss rem := rfl

theorem backfill_some_cons (s : FeedEntry) (ss : List (Option FeedEntry))
    (e : FeedEntry) (rem : List FeedEntry) :
    backfill (some s :: ss) (e :: rem) = some s :: backfill ss (e :: rem) := rfl

theorem backfill_mem_of_mem :
    ∀ sel rem o, o ∈ backfill sel rem → o ∈ sel ∨ ∃ e ∈ rem, o = some e := by
  intro sel
  induction sel with
  | nil =>
    intro rem o h
    rw [backfill_nil] at h
    exact absurd h (List.not_mem_nil o)
  | cons s ss ih =>
    intro rem o h
    cases rem with
    | nil => rw [backfill_cons_nil] at h; exact Or.inl h
    | cons e rem =>
      cases s with
      | none =>
        rw [backfill_none_cons] at h
        rcases List.mem_cons.mp h with rfl | h2
        · exact Or.inr ⟨e, List.mem_cons_self e rem, rfl⟩
        · rcases ih rem o h2 with h3 | ⟨e2, he2, rfl⟩
          · exact Or.inl (List.mem_cons_of_mem _ h3)
          · exact Or.inr ⟨e2, List.mem_cons_of_mem _ he2, rfl⟩
      | some s =>
        rw [backfill_some_cons] at h
        rcases List.mem_cons.mp h with rfl | h2
        · exact Or.inl (List.mem_cons_self _ _)
        · rcases ih (e :: rem) o h2 with h3 | ⟨e2, he2, rfl⟩
          · exact Or.inl (List.mem_cons_of_mem _ h3)
          · exact Or.inr ⟨e2, he2, rfl⟩

theorem formatOutput_mem_of_mem :
    ∀ sel i x, x ∈ formatOutput i sel → some x.2 ∈ sel := by
  intro sel
  induction sel with
  | nil => intro i x h; rw [formatOutput] at h; exact absurd h (List.not_mem_nil x)
  | cons o sel ih =>
    intro i x h
    match o with
    | none =>
      rw [formatOutput] at h
      exact List.mem_cons_of_mem _ (ih _ _ h)
    | some e =>
      rw [formatOutput] at h
      rcases List.mem_cons.mp h with rfl | h2
      · exact List.mem_cons_self _ _
      · exact List.mem_cons_of_mem _ (ih _ _ h2)

/-- Every entry placed in a slot comes from the garbage-filtered feed. -/
theorem getArticles_entry_clean (entries : List FeedEntry) (teams : List String)
    (maxA : Nat) (x : String × FeedEntry) (hx : x ∈ getArticles entries teams maxA) :
    x.2 ∈ cleanEntries entries ∧ isGarbage x.2 = false := by
  rw [getArticles] at hx
  have h1 := formatOutput_mem_of_mem _ _ _ hx
  have h2 := backfill_mem_of_mem _ _ _ h1
  have hmem : x.2 ∈ cleanEntries entries := by
    rcases h2 with h3 | ⟨e, he, heq⟩
    · rcases fillTeamSlots_mem_of_mem _ _ _ _ _ _ _ h3 with h4 | ⟨e, he, heq⟩
      · exact absurd (List.eq_of_mem_replicate h4) (by simp)
      · rcases Option.some.injEq .. ▸ heq with rfl
        exact he
    · rcases Option.some.injEq .. ▸ heq with rfl
      exact List.mem_of_mem_filter he
  refine ⟨hmem, ?_⟩
  have := List.of_mem_filter hmem
  simpa using this

/-- Mapping a function over both lists preserves the Boolean prefix test. -/
theorem isPrefixOf_map (f : α → β) [DecidableEq α] [DecidableEq β] :
    ∀ needle hay : List α, needle.isPrefixOf hay = true →
      (needle.map f).isPrefixOf (hay.map f) = true := by
  intro needle
  induction needle with
  | nil => intro hay _; simp [List.isPrefixOf]
  | cons n ns ih =>
    intro hay h
    cases hay with
    | nil => simp [List.isPrefixOf] at h
    | cons c rest =>
      rw [List.isPrefixOf] at h
      rw [List.map_cons, List.map_cons, List.isPrefixOf]
      simp only [Bool.and_eq_true, beq_iff_eq] at h ⊢
      exact ⟨congrArg f h.1, ih rest h.2⟩

/-- Lowercasing preserves substring occurrence: if the needle occurs in the
haystack then its image occurs in the mapped haystack. -/
theorem listSub_map (f : α → β) [DecidableEq α] [DecidableEq β] :
    ∀ needle hay : List α, listSub needle hay = true →
      listSub (needle.map f) (hay.map f) = true := by
  intro needle hay
  induction hay with
  | nil =>
    intro h
    rw [List.map_nil]
    rw [listSub] at h ⊢
    exact isPrefixOf_map f needle [] h
  | cons c rest ih =>
    intro h
    rw [listSub, Bool.or_eq_true] at h
    rw [List.map_cons, listSub, Bool.or_eq_true]
    rcases h with h | h
    · exact Or.inl (isPrefixOf_map f needle (c :: rest) h)
    · exact Or.inr (ih h)

theorem strIn_lower_of_strIn (needle hay : String) (h : strIn needle hay = true) :
    strIn (lowerStr needle) (lowerStr hay) = true :=
  listSub_map Char.toLower needle.data hay.data h

/-- C6: entries containing a blacklisted keyword (case-insensitively, in
title or summary) are excluded before slot-filling, so no slot of
`get_articles` ever holds a garbage entry; in particular an output entry's
title never contains `Podcast`, even if it also mentions a favorite team. -/
theorem blacklist_excludes_garbage (entries : List FeedEntry) (teams : List String)
    (maxA : Nat) (x : String × FeedEntry) (hx : x ∈ getArticles entries teams maxA) :
    isGarbage x.2 = false ∧ strIn "Podcast" x.2.title = false := by
  have hclean := (getArticles_entry_clean entries teams maxA x hx).2
  refine ⟨hclean, ?_⟩
  by_contra hpod
  rw [Bool.not_eq_false] at hpod
  have hlow : strIn (lowerStr "Podcast") (lowerStr x.2.title) = true :=
    strIn_lower_of_strIn _ _ hpod
  have : isGarbage x.2 = true := by
    rw [isGarbage, List.any_eq_true]
    refine ⟨"Podcast", by decide, ?_⟩
    rw [Bool.or_eq_true]
    exact Or.inl hlow
  rw [this] at hclean
  exact absurd hclean (by simp)

/-- C6 witnessed: a feed containing a Podcast entry that also mentions the
Padres; the first output slot exists and satisfies the exclusions. -/
def feedPodcast : FeedEntry :=
  { title := "MLBTR Podcast: Padres and Phillies offseason chatter"
    summary := "This week we discuss the winter market."
    link := "https://example.com/podcast" }

theorem blacklist_excludes_garbage_witness :
    isGarbage feedPadres = false ∧ strIn "Podcast" feedPadres.title = false :=
  blacklist_excludes_garbage [feedPodcast, feedGeneral, feedPadres] defaultTeams 4
    ("Section 3", feedPadres) (by decide)

/-! ## Claim C5: `has_content` -/

/-- A standings section whose fetch already happened and stored an empty
DataFrame (as the MLB provider returns when a season has no records). -/
def emptyFrameState : StandingsState :=
  { data := .pyframe [], responses := fun _ => .pynone, fetchCount := 1 }

/-- C5 counterexample: `has_content()` is not `true` iff the fetched data is
non-empty.  For a fetched but empty standings DataFrame the isinstance
branch does not apply (a DataFrame is neither a list nor a dict), so
`has_content` falls back to `self.data is not None` and returns `true` even
though the data is empty. -/
theorem hasContent_empty_frame_cex :
    (hasContent emptyFrameState).1 = true ∧
    pyNonEmpty (hasContent emptyFrameState).2.data = false := by
  exact ⟨rfl, rfl⟩

/-- C5 amended: `has_content` triggers a fetch exactly when no fetch has
stored data yet (`self.data is None`); it then returns false for `None`
data, the emptiness test for list and dict data, and `true` for any other
non-`None` data — including an empty DataFrame. -/
theorem hasContent_amended :
    (∀ st : StandingsState, st.data ≠ .pynone → (hasContent st).2 = st) ∧
    (∀ st : StandingsState, st.data = .pynone → (hasContent st).2 = standingsFetchData st) ∧
    (∀ st : StandingsState, (hasContent st).2.data = .pynone → (hasContent st).1 = false) ∧
    (∀ (st : StandingsState) items, (hasContent st).2.data = .pylist items →
      ((hasContent st).1 = true ↔ items ≠ [])) ∧
    (∀ (st : StandingsState) entries, (hasContent st).2.data = .pydict entries →
      ((hasContent st).1 = true ↔ entries ≠ [])) ∧
    (∀ (st : StandingsState) rows, (hasContent st).2.data = .pyframe rows →
      (hasContent st).1 = true) := by
  refine ⟨?_, ?_, ?_, ?_, ?_, ?_⟩
  · intro st h
    cases hd : st.data
    · exact absurd hd h
    all_goals simp [hasContent, hd]
  · intro st h
    simp [hasContent, h]
  · intro st h
    rcases h2 : (hasContent st).2.data <;> simp [hasContent, h2] at h ⊢ <;>
      simp_all [hasContent]
  · intro st items h
    have : (hasContent st).1 = decide (0 < items.length) := by
      simp only [hasContent] at h ⊢
      rw [h]
    rw [this]
    simp [List.length_pos]
  · intro st entries h
    have : (hasContent st).1 = decide (0 < entries.length) := by
      simp only [hasContent] at h ⊢
      rw [h]
    rw [this]
    simp [List.length_pos]
  · intro st rows h
    simp only [hasContent] at h ⊢
    rw [h]

/-- An already-fetched section holding a one-element list. -/
def listDataState : StandingsState :=
  { data := .pylist ["row"], responses := fun _ => .pynone, fetchCount := 1 }

/-- A never-fetched section whose provider keeps answering `None`. -/
def noneDataState : StandingsState :=
  { data := .pynone, responses := fun _ => .pynone, fetchCount := 0 }

/-- C5 amended, witnessed at concrete sections: a fetched list section keeps
its state and reports content; an unfetched section fetches; a section whose
fetch yields `None` reports no content; a fetched empty DataFrame reports
content. -/
theorem hasContent_amended_witness :
    (hasContent listDataState).2 = listDataState ∧
    (hasContent noneDataState).2 = standingsFetchData noneDataState ∧
    (hasContent noneDataState).1 = false ∧
    ((hasContent listDataState).1 = true ↔ ["row"] ≠ []) ∧
    (hasContent emptyFrameState).1 = true :=
  ⟨hasContent_amended.1 listDataState (by simp [listDataState]),
   hasContent_amended.2.1 noneDataState rfl,
   hasContent_amended.2.2.1 noneDataState rfl,
   hasContent_amended.2.2.2.1 listDataState ["row"] rfl,
   hasContent_amended.2.2.2.2.2 emptyFrameState [] rfl⟩

/-! ## Claim C7: `render` and already-fetched state -/

/-- A finished game used in the render counterexample and witnesses. -/
def finishedGame : GameScore :=
  { gameDate := none
    away_team := "Philadelphia Flyers"
    home_team := "Pittsburgh Penguins"
    away_score := some 3
    home_score := some 2
    status := "OFF" }

/-- A game-scores section whose fetch already happened and stored the empty
list, in front of a provider whose next two answers differ. -/
def staleEmptyState : GameScoresState :=
  { data := some []
    responses := fun n => if n = 0 then [] else [finishedGame]
    fetchCount := 0 }

/-- C7 counterexample: for a section whose data has already been fetched but
is empty, `render()` is not a pure function of the fetched state and two
successive calls can differ: `if not self.data` re-triggers a fetch, so the
first render returns nothing while the second renders whatever the provider
returned in between. -/
theorem render_not_idempotent_cex :
    staleEmptyState.data = some [] ∧
    (gsRender staleEmptyState).1 = [] ∧
    (gsRender (gsRender staleEmptyState).2).1 ≠ [] := by
  refine ⟨rfl, rfl, ?_⟩
  decide

/-- C7 amended: when the already-fetched data is non-empty, `render` fetches
nothing, leaves the state unchanged, and its output is a pure function of
the stored games — so two successive calls agree; when the fetched data is
empty (or absent), `render` re-fetches, and it returns the empty sequence
whenever the data is still empty afterwards. -/
theorem render_pure_amended :
    (∀ (st : GameScoresState) d, st.data = some d → d ≠ [] →
      gsRender st = (gsElements d, st)) ∧
    (∀ (st st2 : GameScoresState) d, st.data = some d → st2.data = some d → d ≠ [] →
      (gsRender st).1 = (gsRender st2).1) ∧
    (∀ (st : GameScoresState) d, st.data = some d → d ≠ [] →
      (gsRender (gsRender st).2).1 = (gsRender st).1) ∧
    (∀ st : GameScoresState, st.data = some [] → st.responses st.fetchCount = [] →
      (gsRender st).1 = []) := by
  have main : ∀ (st : GameScoresState) d, st.data = some d → d ≠ [] →
      gsRender st = (gsElements d, st) := by
    intro st d hd hne
    have hfal : gsDataFalsy (some d) = false := by
      simpa [gsDataFalsy] using hne
    simp [gsRender, hd, hfal]
  refine ⟨main, ?_, ?_, ?_⟩
  · intro st st2 d hd hd2 hne
    rw [main st d hd hne, main st2 d hd2 hne]
  · intro st d hd hne
    rw [main st d hd hne]
    rw [main st d hd hne]
  · intro st hd hresp
    simp [gsRender, gsDataFalsy, hd, gsFetchData, hresp]

/-- A game-scores section whose fetch already stored one finished game. -/
def fetchedGameState : GameScoresState :=
  { data := some [finishedGame]
    responses := fun _ => []
    fetchCount := 1 }

/-- C7 amended, witnessed at a concrete fetched section with one game. -/
theorem render_pure_amended_witness :
    gsRender fetchedGameState = (gsElements [finishedGame], fetchedGameState) ∧
    (gsRender (gsRender fetchedGameState).2).1 = (gsRender fetchedGameState).1 ∧
    (gsRender staleEmptyState).1 = [] :=
  ⟨render_pure_amended.1 fetchedGameState [finishedGame] rfl (by decide),
   render_pure_amended.2.2.1 fetchedGameState [finishedGame] rfl (by decide),
   render_pure_amended.2.2.2 staleEmptyState rfl rfl⟩

/-! ## Claim C8: standings sorting and rendering -/

/-- Atlantic leader, rank 1. -/
def recAtl1 : NHLTeamRecordJson :=
  { teamName := "Florida Panthers", divisionName := "Atlantic", conferenceName := "Eastern"
    divisionSequence := 1, gamesPlayed := 65, wins := 40, losses := 20, otLosses := 5
    points := 85, pointPctg := mkRat 85 130, goalFor := 210, goalAgainst := 170
    goalDifferential := 40, streakCode := "W", streakCount := 3 }

/-- Atlantic runner-up, rank 2. -/
def recAtl2 : NHLTeamRecordJson :=
  { teamName := "Boston Bruins", divisionName := "Atlantic", conferenceName := "Eastern"
    divisionSequence := 2, gamesPlayed := 65, wins := 38, losses := 22, otLosses := 5
    points := 81, pointPctg := mkRat 81 130, goalFor := 200, goalAgainst := 180
    goalDifferential := 20, streakCode := "L", streakCount := 1 }

/-- Atlantic third place, rank 3. -/
def recAtl3 : NHLTeamRecordJson :=
  { teamName := "Toronto Maple Leafs", divisionName := "Atlantic", conferenceName := "Eastern"
    divisionSequence := 3, gamesPlayed := 66, wins := 35, losses := 25, otLosses := 6
    points := 76, pointPctg := mkRat 76 132, goalFor := 195, goalAgainst := 190
    goalDifferential := 5, streakCode := "W", streakCount := 1 }

/-- Metropolitan leader, rank 1. -/
def recMet1 : NHLTeamRecordJson :=
  { teamName := "Carolina Hurricanes", divisionName := "Metropolitan"
    conferenceName := "Eastern", divisionSequence := 1, gamesPlayed := 64, wins := 42
    losses := 18, otLosses := 4, points := 88, pointPctg := mkRat 88 128, goalFor := 220
    goalAgainst := 160, goalDifferential := 60, streakCode := "W", streakCount := 5 }

/-- Metropolitan runner-up, rank 2. -/
def recMet2 : NHLTeamRecordJson :=
  { teamName := "New York Rangers", divisionName := "Metropolitan"
    conferenceName := "Eastern", divisionSequence := 2, gamesPlayed := 64, wins := 39
    losses := 21, otLosses := 4, points := 82, pointPctg := mkRat 82 128, goalFor := 205
    goalAgainst := 175, goalDifferential := 30, streakCode := "L", streakCount := 2 }

/-- Metropolitan third place, rank 3. -/
def recMet3 : NHLTeamRecordJson :=
  { teamName := "New Jersey Devils", divisionName := "Metropolitan"
    conferenceName := "Eastern", divisionSequence := 3, gamesPlayed := 67, wins := 33
    losses := 27, otLosses := 7, points := 73, pointPctg := mkRat 73 134, goalFor := 190
    goalAgainst := 200, goalDifferential := -10, streakCode := "OT", streakCount := 1 }

/-- A standings payload with two divisions of three teams each, listed out of
rank order. -/
def twoDivisionPayload : NHLStandingsPayload :=
  { standings := some [recMet2, recAtl3, recAtl1, recMet3, recMet1, recAtl2] }

/-- The rows `get_standings` produces for `twoDivisionPayload`: grouped by
division and sorted by rank inside each division. -/
def twoDivisionRows : List NHLStandingsRow :=
  [mkNHLRow recAtl1, mkNHLRow recAtl2, mkNHLRow recAtl3,
   mkNHLRow recMet1, mkNHLRow recMet2, mkNHLRow recMet3]

/-- C8: every successful `get_standings` result is sorted by conference,
division and rank ascending (equal conference/division blocks are therefore
contiguous); on the two-division payload the provider returns the six rows
grouped by division in rank order, and the rendered standings grid contains
exactly two division tables — Atlantic and Metropolitan, each a header row
plus three data rows sorted by the rank field ascending — with the
empty-string placeholder in the two unused layout cells. -/
theorem standings_sorted_and_rendered :
    (∀ (status : Nat) (body : NHLStandingsPayload) (rows : List NHLStandingsRow),
      nhlGetStandings (.response status body) = .ok rows → List.Sorted nhlRowLe rows) ∧
    nhlGetStandings (.response 200 twoDivisionPayload) = .ok twoDivisionRows ∧
    renderNHLStandings twoDivisionRows =
      Flow.grid
        [[Cell.flow (LeafFlow.para "<b>EASTERN CONFERENCE</b>"),
          Cell.flow (LeafFlow.para "<b>WESTERN CONFERENCE</b>")],
         [Cell.flow (LeafFlow.strTable
            [["Atlantic Division", "W", "L", "OTL", "P"],
             ["Florida Panthers", "40", "20", "5", "85"],
             ["Boston Bruins", "38", "22", "5", "81"],
             ["Toronto Maple Leafs", "35", "25", "6", "76"]]),
          Cell.str ""],
         [Cell.flow (LeafFlow.strTable
            [["Metropolitan Division", "W", "L", "OTL", "P"],
             ["Carolina Hurricanes", "42", "18", "4", "88"],
             ["New York Rangers", "39", "21", "4", "82"],
             ["New Jersey Devils", "33", "27", "7", "73"]]),
          Cell.str ""]] := by
  refine ⟨?_, by rfl, by decide⟩
  intro status body rows h
  by_cases hs : 400 ≤ status
  · simp [nhlGetStandings, raiseForStatus, hs] at h
  · simp only [nhlGetStandings, raiseForStatus, if_neg hs] at h
    by_cases he : (body.standings.getD []).isEmpty = true
    · rw [if_pos he] at h
      exact absurd h (by simp)
    · rw [if_neg he, Except.ok.injEq] at h
      exact h ▸ List.sorted_insertionSort nhlRowLe _

/-- C8 witnessed: the sortedness statement applied to the concrete
two-division payload, whose result rows the theorem itself supplies. -/
theorem standings_sorted_and_rendered_witness :
    List.Sorted nhlRowLe twoDivisionRows :=
  standings_sorted_and_rendered.1 200 twoDivisionPayload twoDivisionRows
    standings_sorted_and_rendered.2.1

/-! ## Claim C10: `sanitize_entry` invariants -/

theorem length_dropWhile_le (p : α → Bool) : ∀ l : List α, (l.dropWhile p).length ≤ l.length := by
  intro l
  induction l with
  | nil => exact Nat.le_refl 0
  | cons a as ih =>
    by_cases hp : p a = true
    · rw [List.dropWhile_cons_of_pos hp]
      exact Nat.le_succ_of_le ih
    · rw [List.dropWhile_cons_of_neg (by simpa using hp)]

theorem dropLastWord_length_le (cs : List Char) : (dropLastWord cs).length ≤ cs.length := by
  rw [dropLastWord]
  split
  · rw [List.length_reverse, List.length_tail]
    calc (cs.reverse.dropWhile fun c => c ≠ ' ').length - 1
        ≤ (cs.reverse.dropWhile fun c => c ≠ ' ').length := Nat.sub_le _ _
      _ ≤ cs.reverse.length := length_dropWhile_le _ _
      _ = cs.length := List.length_reverse cs
  · exact Nat.le_refl _

theorem mk_append_data (l : List Char) (t : String) :
    (String.mk l ++ t).data = l ++ t.data := by
  cases t
  rfl

theorem truncateSummary_length_le (s : String) : (truncateSummary s).length ≤ 4003 := by
  have h1 : (truncateSummary s).length = (dropLastWord (s.data.take 4000)).length + 3 := by
    rw [truncateSummary]
    show (String.mk (dropLastWord (s.data.take 4000)) ++ "...").data.length = _
    rw [mk_append_data, List.length_append]
    rfl
  rw [h1]
  have h2 := dropLastWord_length_le (s.data.take 4000)
  have h3 : (s.data.take 4000).length ≤ 4000 := by
    rw [List.length_take]
    exact Nat.min_le_left _ _
  omega

theorem truncateSummary_suffix (s : String) : ∃ pre, truncateSummary s = pre ++ "..." :=
  ⟨String.mk (dropLastWord (s.data.take 4000)), rfl⟩

/-- C10: whenever `sanitize_entry` accepts an entry, the cleaned summary is
at most 4003 characters long; a summary whose sanitized form exceeds 4000
characters comes out truncated at a word boundary with the `...` suffix; and
the entry is rejected (`None`) whenever both the sanitized title and the
sanitized summary are classified as garbage. -/
theorem sanitizeEntry_spec :
    (∀ (e : RawEntry) (c : CleanedEntry), sanitizeEntry e = some c →
      c.summary.length ≤ 4003) ∧
    (∀ (e : RawEntry) (c : CleanedEntry), sanitizeEntry e = some c →
      4000 < (sanitizeText (rawSummary e)).length → ∃ pre, c.summary = pre ++ "...") ∧
    (∀ e : RawEntry, looksLikeGarbage (sanitizeText (rawSummary e)) = true →
      looksLikeGarbage (sanitizeText (rawTitle e)) = true →
      sanitizeEntry e = none) := by
  have summary_eq : ∀ (e : RawEntry) (c : CleanedEntry), sanitizeEntry e = some c →
      c.summary = (if 4000 < (sanitizeText (rawSummary e)).length then
        truncateSummary (sanitizeText (rawSummary e)) else sanitizeText (rawSummary e)) := by
    intro e c h
    by_cases hg : (looksLikeGarbage (sanitizeText (rawSummary e)) &&
        looksLikeGarbage (sanitizeText (rawTitle e))) = true
    · simp [sanitizeEntry, hg] at h
    · simp only [sanitizeEntry, hg, Bool.false_eq_true, if_false, Option.some.injEq] at h
      rw [← h]
  refine ⟨?_, ?_, ?_⟩
  · intro e c h
    rw [summary_eq e c h]
    split
    · exact truncateSummary_length_le _
    · omega
  · intro e c h h4
    rw [summary_eq e c h, if_pos h4]
    exact truncateSummary_suffix _
  · intro e hs ht
    simp [sanitizeEntry, hs, ht]

/-- A well-formed feed entry accepted by the sanitizer unchanged. -/
def entryOk : RawEntry :=
  { title := some "Phillies rumors: offseason outlook ahead"
    title_detail := none
    summary := some "The Phillies are weighing several bullpen upgrades this winter."
    description := none
    content := none
    link := some "https://example.com/a"
    guid := none
    id := none
    published_parsed := some 1700000000 }

/-- The cleaned entry the sanitizer produces for `entryOk`. -/
def cleanedOk : CleanedEntry :=
  { title := "Phillies rumors: offseason outlook ahead"
    summary := "The Phillies are weighing several bullpen upgrades this winter."
    link := "https://example.com/a"
    published_parsed := some 1700000000
    id := "https://example.com/a" }

/-- An entry whose summary is a 4100-character word with no spaces. -/
def entryLong : RawEntry :=
  { title := none
    title_detail := none
    summary := some (String.mk (List.replicate 4100 'a'))
    description := none
    content := none
    link := none
    guid := none
    id := none
    published_parsed := none }

/-- The cleaned entry for `entryLong`: the title falls back to the first 120
characters of the summary, and the summary is cut at 4000 characters (no
word boundary inside) and suffixed. -/
def cleanedLong : CleanedEntry :=
  { title := String.mk (List.replicate 120 'a')
    summary := String.mk (List.replicate 4000 'a') ++ "..."
    link := ""
    published_parsed := none
    id := "" }

/-- An entry whose title and summary are both too short: garbage. -/
def entryGarbage : RawEntry :=
  { title := some "short"
    title_detail := none
    summary := some "x"
    description := none
    content := none
    link := some "https://example.com/g"
    guid := none
    id := none
    published_parsed := none }

/-! Evaluating the sanitizer on the 4100-character summary is done by
equational reasoning on `List.replicate` (a kernel evaluation of that depth
is not practical); each pipeline stage fixes a run of the letter `a`. -/

theorem unescapeHtml_repl (n : Nat) :
    unescapeHtml (List.replicate n 'a') = List.replicate n 'a' := by
  induction n with
  | zero => rfl
  | succ n ih =>
    rw [List.replicate_succ]
    show 'a' :: unescapeHtml (List.replicate n 'a') = _
    rw [ih]

theorem stripTagsAux_repl (n : Nat) :
    stripTagsAux (List.replicate n 'a') none = List.replicate n 'a' := by
  induction n with
  | zero => rfl
  | succ n ih =>
    rw [List.replicate_succ]
    show 'a' :: stripTagsAux (List.replicate n 'a') none = _
    rw [ih]

theorem stripControl_repl (n : Nat) :
    stripControl (List.replicate n 'a') = List.replicate n 'a' := by
  induction n with
  | zero => rfl
  | succ n ih =>
    rw [List.replicate_succ]
    show 'a' :: stripControl (List.replicate n 'a') = _
    rw [ih]

theorem collapseWs_repl (n : Nat) :
    collapseWs false (List.replicate n 'a') = List.replicate n 'a' := by
  induction n with
  | zero => rfl
  | succ n ih =>
    rw [List.replicate_succ]
    show 'a' :: collapseWs false (List.replicate n 'a') = _
    rw [ih]

theorem dropWhile_space_repl (n : Nat) :
    (List.replicate n 'a').dropWhile isPySpace = List.replicate n 'a' := by
  cases n with
  | zero => rfl
  | succ n =>
    rw [List.replicate_succ]
    exact List.dropWhile_cons_of_neg (by decide)

theorem pyStrip_repl (n : Nat) :
    pyStrip (List.replicate n 'a') = List.replicate n 'a' := by
  rw [pyStrip, dropWhile_space_repl, List.reverse_replicate, dropWhile_space_repl,
    List.reverse_replicate]

theorem repl_string_ne_empty (n : Nat) : String.mk (List.replicate (n + 1) 'a') ≠ "" := by
  intro h
  have : List.replicate (n + 1) 'a' = ([] : List Char) := congrArg String.data h
  simp at this

theorem sanitizeText_repl (n : Nat) :
    sanitizeText (String.mk (List.replicate (n + 1) 'a')) =
      String.mk (List.replicate (n + 1) 'a') := by
  rw [sanitizeText, if_neg (repl_string_ne_empty n)]
  show String.mk (pyStrip (collapseWs false (stripControl (stripTags
    (unescapeHtml (List.replicate (n + 1) 'a')))))) = _
  rw [unescapeHtml_repl, stripTags, stripTagsAux_repl, stripControl_repl, collapseWs_repl,
    pyStrip_repl]

theorem contains_space_repl (n : Nat) :
    (List.replicate n 'a').contains ' ' = false := by
  induction n with
  | zero => rfl
  | succ n ih =>
    rw [List.replicate_succ]
    show (List.replicate n 'a').contains ' ' = false
    exact ih

theorem firstSegment_repl (n : Nat) :
    firstSegment (List.replicate n 'a') = List.replicate n 'a' := by
  induction n with
  | zero => rfl
  | succ n ih =>
    rw [List.replicate_succ]
    cases n with
    | zero => rfl
    | succ m =>
      rw [List.replicate_succ]
      show 'a' :: firstSegment ('a' :: List.replicate m 'a') = _
      rw [← List.replicate_succ, ih]

theorem dropLastWord_repl (n : Nat) :
    dropLastWord (List.replicate n 'a') = List.replicate n 'a' := by
  rw [dropLastWord, contains_space_repl]
  simp

theorem rawSummary_entryLong :
    rawSummary entryLong = String.mk (List.replicate 4100 'a') := by
  rw [rawSummary, entryLong]
  show pyOr (String.mk (List.replicate 4100 'a')) _ = _
  rw [pyOr, if_neg (repl_string_ne_empty 4099)]

theorem sanitized_summary_entryLong :
    sanitizeText (rawSummary entryLong) = String.mk (List.replicate 4100 'a') := by
  rw [rawSummary_entryLong]
  exact sanitizeText_repl 4099

theorem sanitized_summary_entryLong_length :
    (sanitizeText (rawSummary entryLong)).length = 4100 := by
  rw [sanitized_summary_entryLong]
  show (List.replicate 4100 'a').length = 4100
  rw [List.length_replicate]

theorem garbage_entryLong_summary :
    looksLikeGarbage (sanitizeText (rawSummary entryLong)) = false := by
  rw [sanitized_summary_entryLong, looksLikeGarbage, if_neg (repl_string_ne_empty 4099)]
  show (if (pyStrip (List.replicate 4100 'a')).length < 20 then true else _) = false
  rw [pyStrip_repl, List.length_replicate]
  norm_num
  refine ⟨⟨⟨?_, ?_⟩, ?_⟩, ?_⟩
  all_goals
    intro h
    have hl := congrArg List.length h
    rw [List.length_replicate] at hl
    simp at hl

/-- The sanitizer's output on the oversized entry, established by the
`List.replicate` lemmas above. -/
theorem sanitizeEntry_entryLong : sanitizeEntry entryLong = some cleanedLong := by
  have hT : sanitizeText (rawTitle entryLong) = "" := rfl
  have hgT : looksLikeGarbage (sanitizeText (rawTitle entryLong)) = true := rfl
  rw [sanitizeEntry, sanitized_summary_entryLong, hT]
  rw [show looksLikeGarbage (String.mk (List.replicate 4100 'a')) = false from
    sanitized_summary_entryLong ▸ garbage_entryLong_summary]
  simp only [Bool.false_and, Bool.false_eq_true, if_false]
  have hfs : String.mk (pyStrip ((firstSegment (String.mk
      (List.replicate 4100 'a')).data).take 120)) = String.mk (List.replicate 120 'a') := by
    show String.mk (pyStrip ((firstSegment (List.replicate 4100 'a')).take 120)) = _
    rw [firstSegment_repl, List.take_replicate]
    norm_num
    rw [pyStrip_repl]
  have hlen : (String.mk (List.replicate 4100 'a')).length = 4100 := by
    show (List.replicate 4100 'a').length = 4100
    rw [List.length_replicate]
  have htr : truncateSummary (String.mk (List.replicate 4100 'a')) =
      String.mk (List.replicate 4000 'a') ++ "..." := by
    rw [truncateSummary]
    show String.mk (dropLastWord ((List.replicate 4100 'a').take 4000)) ++ "..." = _
    rw [List.take_replicate]
    norm_num
    rw [dropLastWord_repl]
  simp only [hfs, hlen, htr]
  rw [if_pos (Or.inl trivial), if_pos (repl_string_ne_empty 119)]
  rw [if_pos (by norm_num : (4000 : Nat) < 4100)]
  rfl

/-- C10 witnessed: the accepted entry obeys the length bound, the oversized
summary comes out with the ellipsis suffix, and the all-garbage entry is
rejected. -/
theorem sanitizeEntry_spec_witness :
    cleanedOk.summary.length ≤ 4003 ∧
    (∃ pre, cleanedLong.summary = pre ++ "...") ∧
    sanitizeEntry entryGarbage = none :=
  ⟨sanitizeEntry_spec.1 entryOk cleanedOk (by decide),
   sanitizeEntry_spec.2.1 entryLong cleanedLong sanitizeEntry_entryLong
     (by rw [sanitized_summary_entryLong_length]; norm_num),
   sanitizeEntry_spec.2.2 entryGarbage (by decide) (by decide)⟩

/-! ## Claim C9: `get_articles` output invariants

Three facts about every run of `get_articles`: at most `max_articles` items
come out; the slot labels appear in increasing order as a sublist of
`Section 1 .. Section max_articles`; and, when the clean entries carry
pairwise-distinct links, no entry occupies two slots.
-/

/-- Two slots never hold entries with the same link (vacuous for empty
slots). -/
def linkNeP (o1 o2 : Option FeedEntry) : Prop :=
  ∀ e1 e2, o1 = some e1 → o2 = some e2 → e1.link ≠ e2.link

theorem fillTeamSlots_length (teams : List String) (maxA : Nat) (clean : List FeedEntry) :
    ∀ prios sel guids,
      ((fillTeamSlots teams maxA clean prios sel guids).1).length = sel.length := by
  intro prios
  induction prios with
  | nil => intro sel guids; rfl
  | cons p ps ih =>
    intro sel guids
    rw [fillTeamSlots]
    by_cases hb : maxA ≤ p + 1
    · rw [if_pos hb]
    · rw [if_neg hb]
      rcases hf : List.find? (fun e => !guids.contains e.link &&
          strIn (teams.getD p "") e.title) clean with _ | e
      · rw [hf]
        exact ih _ _
      · rw [hf, ih _ _, List.length_set]

theorem backfill_length : ∀ sel rem, (backfill sel rem).length = sel.length := by
  intro sel
  induction sel with
  | nil => intro rem; rw [backfill_nil]
  | cons s ss ih =>
    intro rem
    cases rem with
    | nil => rw [backfill_cons_nil]
    | cons e rem =>
      cases s with
      | none => rw [backfill_none_cons, List.length_cons, ih, List.length_cons]
      | some s => rw [backfill_some_cons, List.length_cons, ih, List.length_cons]

theorem formatOutput_length_le : ∀ sel i, (formatOutput i sel).length ≤ sel.length := by
  intro sel
  induction sel with
  | nil => intro i; exact Nat.le_refl 0
  | cons o sel ih =>
    intro i
    cases o with
    | none =>
      rw [formatOutput]
      exact Nat.le_succ_of_le (ih _)
    | some e =>
      rw [formatOutput, List.length_cons, List.length_cons]
      exact Nat.succ_le_succ (ih _)

theorem formatOutput_fst_sublist :
    ∀ (sel : List (Option FeedEntry)) (i : Nat),
      List.Sublist ((formatOutput i sel).map Prod.fst)
        ((List.range' i sel.length).map fun j => "Section " ++ toString (j + 1)) := by
  intro sel
  induction sel with
  | nil => intro i; exact List.Sublist.refl []
  | cons o sel ih =>
    intro i
    rw [List.length_cons, List.range'_succ, List.map_cons]
    cases o with
    | none =>
      rw [formatOutput]
      exact List.Sublist.cons _ (ih (i + 1))
    | some e =>
      rw [formatOutput, List.map_cons]
      exact List.Sublist.cons₂ _ (ih (i + 1))

theorem formatOutput_snd :
    ∀ (sel : List (Option FeedEntry)) (i : Nat),
      (formatOutput i sel).map Prod.snd = sel.filterMap id := by
  intro sel
  induction sel with
  | nil => intro i; rfl
  | cons o sel ih =>
    intro i
    cases o with
    | none =>
      rw [formatOutput, List.filterMap_cons]
      exact ih _
    | some e =>
      rw [formatOutput, List.filterMap_cons, List.map_cons, ih]
      rfl

theorem pairwise_replicate_none (n : Nat) :
    List.Pairwise linkNeP (List.replicate n (none : Option FeedEntry)) := by
  induction n with
  | zero => exact List.Pairwise.nil
  | succ n ih =>
    rw [List.replicate_succ, List.pairwise_cons]
    refine ⟨?_, ih⟩
    intro o ho e1 e2 h1
    exact absurd h1 (by simp)

theorem pairwise_set {P : α → α → Prop} :
    ∀ (l : List α) (i : Nat) (x : α), List.Pairwise P l →
      (∀ y ∈ l, P y x ∧ P x y) → List.Pairwise P (l.set i x) := by
  intro l
  induction l with
  | nil => intro i x _ _; exact List.Pairwise.nil
  | cons a l ih =>
    intro i x hp hx
    rw [List.pairwise_cons] at hp
    cases i with
    | zero =>
      rw [List.set_cons_zero, List.pairwise_cons]
      refine ⟨fun y hy => (hx y (List.mem_cons_of_mem a hy)).2, hp.2⟩
    | succ i =>
      rw [List.set_cons_succ, List.pairwise_cons]
      refine ⟨?_, ih i x hp.2 fun y hy => hx y (List.mem_cons_of_mem a hy)⟩
      intro y hy
      rcases List.mem_or_eq_of_mem_set hy with hy2 | rfl
      · exact hp.1 y hy2
      · exact (hx a (List.mem_cons_self a l)).1

theorem contains_false_not_mem {l : List String} {a : String}
    (h : l.contains a = false) : a ∉ l := by
  intro hm
  have htrue : l.contains a = true := by
    rw [List.contains_eq_any_beq, List.any_eq_true]
    exact ⟨a, hm, by simp⟩
  rw [htrue] at h
  exact absurd h (by simp)

theorem fillTeamSlots_inv (teams : List String) (maxA : Nat) (clean : List FeedEntry) :
    ∀ prios sel guids,
      (∀ o ∈ sel, ∀ e : FeedEntry, o = some e → e.link ∈ guids) →
      List.Pairwise linkNeP sel →
      (∀ o ∈ (fillTeamSlots teams maxA clean prios sel guids).1, ∀ e : FeedEntry,
        o = some e → e.link ∈ (fillTeamSlots teams maxA clean prios sel guids).2) ∧
      List.Pairwise linkNeP (fillTeamSlots teams maxA clean prios sel guids).1 := by
  intro prios
  induction prios with
  | nil => intro sel guids hin hpw; exact ⟨hin, hpw⟩
  | cons p ps ih =>
    intro sel guids hin hpw
    rw [fillTeamSlots]
    by_cases hb : maxA ≤ p + 1
    · rw [if_pos hb]; exact ⟨hin, hpw⟩
    · rw [if_neg hb]
      rcases hf : List.find? (fun e => !guids.contains e.link &&
          strIn (teams.getD p "") e.title) clean with _ | e
      · rw [hf]
        exact ih sel guids hin hpw
      · rw [hf]
        have hpred := List.find?_some hf
        rw [Bool.and_eq_true, Bool.not_eq_true'] at hpred
        have hnot : e.link ∉ guids := contains_false_not_mem hpred.1
        apply ih
        · intro o ho e2 he2
          rcases List.mem_or_eq_of_mem_set ho with ho2 | rfl
          · exact List.mem_cons_of_mem _ (hin o ho2 e2 he2)
          · rw [Option.some.injEq] at he2
            rw [← he2]
            exact List.mem_cons_self _ _
        · apply pairwise_set sel (p + 1) (some e) hpw
          intro y hy
          constructor
          · intro e1 e2 h1 h2
            rw [Option.some.injEq] at h2
            rw [← h2]
            intro hlk
            exact hnot (hlk ▸ hin y hy e1 h1)
          · intro e1 e2 h1 h2
            rw [Option.some.injEq] at h1
            rw [← h1]
            intro hlk
            exact hnot (hlk.symm ▸ hin y hy e2 h2)

theorem backfill_pairwise :
    ∀ (sel : List (Option FeedEntry)) (rem : List FeedEntry),
      List.Pairwise linkNeP sel →
      List.Pairwise (fun a b => a.link ≠ b.link) rem →
      (∀ o ∈ sel, ∀ e : FeedEntry, o = some e → ∀ r ∈ rem, e.link ≠ r.link) →
      List.Pairwise linkNeP (backfill sel rem) := by
  intro sel
  induction sel with
  | nil =>
    intro rem _ _ _
    rw [backfill_nil]
    exact List.Pairwise.nil
  | cons s ss ih =>
    intro rem hsel hrem hcross
    rw [List.pairwise_cons] at hsel
    cases rem with
    | nil =>
      rw [backfill_cons_nil, List.pairwise_cons]
      exact ⟨hsel.1, hsel.2⟩
    | cons r rem =>
      rw [List.pairwise_cons] at hrem
      cases s with
      | none =>
        rw [backfill_none_cons, List.pairwise_cons]
        constructor
        · intro y hy e1 e2 h1 h2
          rw [Option.some.injEq] at h1
          rcases backfill_mem_of_mem ss rem y hy with hy2 | ⟨r2, hr2, rfl⟩
          · have := hcross y (List.mem_cons_of_mem _ hy2) e2 h2 r
              (List.mem_cons_self r rem)
            rw [← h1]
            exact fun hlk => this (hlk.symm)
          · rw [Option.some.injEq] at h2
            rw [← h1, ← h2]
            exact hrem.1 r2 hr2
        · apply ih rem hsel.2 hrem.2
          intro o ho e he r2 hr2
          exact hcross o (List.mem_cons_of_mem _ ho) e he r2 (List.mem_cons_of_mem _ hr2)
      | some s =>
        rw [backfill_some_cons, List.pairwise_cons]
        constructor
        · intro y hy e1 e2 h1 h2
          rw [Option.some.injEq] at h1
          rcases backfill_mem_of_mem ss (r :: rem) y hy with hy2 | ⟨r2, hr2, rfl⟩
          · exact hsel.1 y hy2 e1 e2 (by rw [h1]) h2
          · rw [Option.some.injEq] at h2
            rw [← h1, ← h2]
            exact hcross (some s) (List.mem_cons_self _ _) s rfl r2 hr2
        · apply ih (r :: rem) hsel.2 (List.pairwise_cons.mpr hrem)
          intro o ho e he r2 hr2
          exact hcross o (List.mem_cons_of_mem _ ho) e he r2 hr2

theorem pairwise_filterMap_id :
    ∀ sel : List (Option FeedEntry), List.Pairwise linkNeP sel →
      List.Pairwise (fun a b => a.link ≠ b.link) (sel.filterMap id) := by
  intro sel
  induction sel with
  | nil => intro _; exact List.Pairwise.nil
  | cons o sel ih =>
    intro hpw
    rw [List.pairwise_cons] at hpw
    cases o with
    | none =>
      rw [List.filterMap_cons]
      exact ih hpw.2
    | some e =>
      rw [List.filterMap_cons]
      show List.Pairwise (fun a b => a.link ≠ b.link) (e :: List.filterMap id sel)
      rw [List.pairwise_cons]
      constructor
      · intro b hb
        rw [List.mem_filterMap] at hb
        rcases hb with ⟨ob, hob, hid⟩
        exact hpw.1 ob hob e b rfl hid
      · exact ih hpw.2

/-- C9: `get_articles` returns at most `max_articles` items; the slot labels
appear, in order, as a sublist of `Section 1 .. Section max_articles`; and
when the clean feed entries have pairwise-distinct links, the returned
entries are pairwise distinct — no feed entry is assigned to more than one
slot. -/
theorem getArticles_invariants (entries : List FeedEntry) (teams : List String)
    (maxA : Nat) :
    (getArticles entries teams maxA).length ≤ maxA ∧
    List.Sublist ((getArticles entries teams maxA).map Prod.fst)
      ((List.range maxA).map fun j => "Section " ++ toString (j + 1)) ∧
    (List.Pairwise (fun a b => a.link ≠ b.link) (cleanEntries entries) →
      List.Pairwise (fun a b => a ≠ b) ((getArticles entries teams maxA).map Prod.snd)) := by
  have hlen : (backfill (teamPhase entries teams maxA).1
      (remainingEntries entries teams maxA)).length = maxA := by
    rw [backfill_length, teamPhase, fillTeamSlots_length, List.length_replicate]
  refine ⟨?_, ?_, ?_⟩
  · rw [getArticles]
    calc (formatOutput 0 _).length ≤ _ := formatOutput_length_le _ 0
      _ = maxA := hlen
  · rw [getArticles]
    have h := formatOutput_fst_sublist
      (backfill (teamPhase entries teams maxA).1 (remainingEntries entries teams maxA)) 0
    rw [hlen, ← List.range_eq_range'] at h
    exact h
  · intro hdist
    rw [getArticles, formatOutput_snd]
    have hteam := fillTeamSlots_inv teams maxA (cleanEntries entries) (sortedPrios teams)
      (List.replicate maxA none) []
      (by intro o ho e he; exact absurd (List.eq_of_mem_replicate ho) (by rw [he]; simp))
      (pairwise_replicate_none maxA)
    have hremdist : List.Pairwise (fun a b => a.link ≠ b.link)
        (remainingEntries entries teams maxA) :=
      hdist.filter _
    have hpw := backfill_pairwise (teamPhase entries teams maxA).1
      (remainingEntries entries teams maxA) hteam.2 hremdist ?_
    · exact (pairwise_filterMap_id _ hpw).imp fun hne heq =>
        hne (congrArg FeedEntry.link heq)
    · intro o ho e he r hr
      have hlink := hteam.1 o ho e he
      have hrnot : r.link ∉ (teamPhase entries teams maxA).2 := by
        have := List.of_mem_filter hr
        rw [Bool.not_eq_true'] at this
        exact contains_false_not_mem this
      intro hlk
      exact hrnot (hlk ▸ hlink)

/-- C9 witnessed at the concrete witness feed, whose clean entries carry
pairwise-distinct links. -/
theorem getArticles_invariants_witness :
    (getArticles [feedGeneral, feedPadres, feedRecap, feedRules, feedDraft]
        defaultTeams 4).length ≤ 4 ∧
    List.Pairwise (fun a b => a ≠ b)
      ((getArticles [feedGeneral, feedPadres, feedRecap, feedRules, feedDraft]
          defaultTeams 4).map Prod.snd) :=
  ⟨(getArticles_invariants [feedGeneral, feedPadres, feedRecap, feedRules, feedDraft]
      defaultTeams 4).1,
   (getArticles_invariants [feedGeneral, feedPadres, feedRecap, feedRules, feedDraft]
      defaultTeams 4).2.2 (by decide)⟩

end Screamsheet
